import Mathlib

/-!
Transparent-decryption decorators of `db/cryptodata/wrapper.go`

A shallow embedding of the decorators that sit in front of a key-value store
client and decrypt every value on the way out.

* Go interfaces are records of methods; an interface value that may be `nil`
  is an `Option` of such a record.
* Every method is a state transformer over `St`.  `St` carries the mutable
  objects outside the decorators (`heap`: the message objects that callers
  pass by pointer) and `decryptCalls`, the list of calls made to
  `ArbitraryDecrypter.Decrypt`, extended at each call site of the source.
* A method either returns (`Outcome.ret`) or panics (`Outcome.panic`): a failed
  type assertion or a call through a nil interface.
-/

namespace Cryptodata

/-! ## Values -/

/-- Go `[]byte`: `none` is the nil slice. -/
abbrev Bytes := Option (List Nat)

/-- A non-nil Go `error` value. -/
structure GoError where
  msg : String
  deriving DecidableEq, Repr

/-- Go `error`: `none` is `nil`. -/
abbrev Err := Option GoError

/-- Modelled from the spec: the type `DecryptFunc` is declared outside `wrapper.go`.
The decorators never call it, they only hand it to `Decrypt`, so a value of the
type is represented by a handle that tells two functions apart. -/
structure DecryptFunc where
  id : Nat
  deriving DecidableEq, Repr

/-- Address of a message object (`proto.Message` is passed by pointer). -/
abbrev MsgPtr := Nat

/-- Field values of a structured message. -/
abbrev Message := List (List Nat)

/-- Go `interface{}` as far as the decorators use it: what is passed to and
returned by `Decrypt`. -/
inductive Value where
  | nil
  | bytes (b : Bytes)
  | message (p : MsgPtr)
  deriving DecidableEq, Repr

/-- Mutable objects outside the decorators: the contents of message objects. -/
abbrev Heap := List (MsgPtr × Message)

/-- One recorded call `Decrypt(inData, decryptFunc)`. -/
structure DecryptCall where
  inData : Value
  decryptFunc : DecryptFunc
  deriving DecidableEq, Repr

/-- State threaded through every call. -/
structure St where
  heap : Heap
  decryptCalls : List DecryptCall
  deriving DecidableEq, Repr

/-- Result of running a method: a normal return or a run-time panic. -/
inductive Outcome (α : Type) where
  | ret (a : α)
  | panic (reason : String)
  deriving DecidableEq, Repr

/-- A Go call: from the state before to the outcome and the state after. -/
abbrev Go (α : Type) := St → Outcome α × St

/-- Change type carried by a watch event. -/
inductive PutDel where
  | Put
  | Delete
  deriving DecidableEq, Repr

/-! ## Collaborators (interfaces declared outside `wrapper.go`) -/

/-- Modelled from the spec: the interface `ArbitraryDecrypter` is declared outside
`wrapper.go`.  `Decrypt(payload, hint) -> (plaintext, error)`; on a message it
mutates the fields in place, hence the heap. -/
structure ArbitraryDecrypter where
  Decrypt : Value → DecryptFunc → Heap → (Value × Err) × Heap

/-- Modelled from the spec: interface `keyval.BytesKeyVal`, the accessors of a
key-value record `{ key, value, prevValue, revision }`. -/
structure BytesKeyVal where
  GetKey : Go String
  GetValue : Go Bytes
  GetPrevValue : Go Bytes
  GetRevision : Go Int

/-- Modelled from the spec: interface `keyval.BytesWatchResp`, a key-value record
with the type of the change. -/
structure BytesWatchResp extends BytesKeyVal where
  GetChangeType : Go PutDel

/-- Modelled from the spec: interface `keyval.BytesKeyValIterator`. -/
structure BytesKeyValIterator where
  GetNext : Go (Option BytesKeyVal × Bool)

/-- Modelled from the spec: interface `keyval.BytesBroker`, restricted to the read
operations the decorator intercepts. -/
structure BytesBroker where
  GetValue : String → Go (Bytes × Bool × Int × Err)
  ListValues : String → Go (Option BytesKeyValIterator × Err)

/-- Channel handle (`chan string`). -/
abbrev Chan := Nat

/-- Modelled from the spec: interface `keyval.BytesWatcher`.  The callback is run
on the state at the moment of delivery. -/
structure BytesWatcher where
  Watch : (Option BytesWatchResp → St → St) → Chan → List String → Go Err

/-- Modelled from the spec: interface `keyval.ProtoBroker`, restricted to
`GetValue`, which deserializes into the message object `reqObj` points to. -/
structure ProtoBroker where
  GetValue : String → MsgPtr → Go (Bool × Int × Err)

/-! ## `wrapper.go` -/

/-- Struct `decryptData` (wrapper.go:23-28). -/
structure decryptData where
  decryptFunc : DecryptFunc
  decrypter : ArbitraryDecrypter

/-- Struct `BytesBrokerWrapper` (wrapper.go:37-40). -/
structure BytesBrokerWrapper where
  BytesBroker : BytesBroker
  decryptData : decryptData

/-- Struct `BytesWatcherWrapper` (wrapper.go:43-46). -/
structure BytesWatcherWrapper where
  BytesWatcher : BytesWatcher
  decryptData : decryptData

/-- Struct `BytesKeyValWrapper` (wrapper.go:49-52); the embedded interface may be nil. -/
structure BytesKeyValWrapper where
  BytesKeyVal : Option BytesKeyVal
  decryptData : decryptData

/-- Struct `BytesWatchRespWrapper` (wrapper.go:55-58). -/
structure BytesWatchRespWrapper where
  BytesWatchResp : Option BytesWatchResp
  BytesKeyValWrapper : BytesKeyValWrapper

/-- Struct `BytesKeyValIteratorWrapper` (wrapper.go:61-64). -/
structure BytesKeyValIteratorWrapper where
  BytesKeyValIterator : Option BytesKeyValIterator
  decryptData : decryptData

/-- Struct `ProtoBrokerWrapper` (wrapper.go:205-208). -/
structure ProtoBrokerWrapper where
  ProtoBroker : ProtoBroker
  decryptData : decryptData

/-- A call `decrypter.Decrypt(inData, decryptFunc)` as it appears in the source:
the call is recorded, then the decrypter runs on the heap. -/
def callDecrypt (decrypter : ArbitraryDecrypter) (inData : Value) (decryptFunc : DecryptFunc)
    (s : St) : (Value × Err) × St :=
  let r := decrypter.Decrypt inData decryptFunc s.heap
  (r.1, { heap := r.2, decryptCalls := s.decryptCalls ++ [⟨inData, decryptFunc⟩] })

/-- Type assertion `objData.([]byte)`. -/
def assertBytes : Value → Outcome Bytes
  | .bytes b => .ret b
  | .nil => .panic "interface conversion: interface is nil, not []uint8"
  | .message _ => .panic "interface conversion: interface is proto.Message, not []uint8"

/-- Function `NewBytesBrokerWrapper` (wrapper.go:79-87). -/
def NewBytesBrokerWrapper (pb : BytesBroker) (decrypter : ArbitraryDecrypter)
    (decryptFunc : DecryptFunc) : BytesBrokerWrapper :=
  { BytesBroker := pb
    decryptData := { decryptFunc := decryptFunc, decrypter := decrypter } }

/-- Method `(*BytesBrokerWrapper).GetValue` (wrapper.go:116-127). -/
def BytesBrokerWrapper.GetValue (cbb : BytesBrokerWrapper) (key : String) :
    Go (Bytes × Bool × Int × Err) := fun s =>
  match cbb.BytesBroker.GetValue key s with
  | (.panic m, s1) => (.panic m, s1)
  | (.ret (data, found, revision, err), s1) =>
    if err = none then
      match callDecrypt cbb.decryptData.decrypter (.bytes data) cbb.decryptData.decryptFunc s1 with
      | ((_, some e), s2) => (.ret (data, found, revision, some e), s2)
      | ((objData, none), s2) =>
        match assertBytes objData with
        | .panic m => (.panic m, s2)
        | .ret b => (.ret (b, found, revision, err), s2)
    else
      (.ret (data, found, revision, err), s1)

/-- A method promoted from an embedded interface: calling it through a nil
interface panics. -/
def promoted {ι α : Type} (embedded : Option ι) (method : ι → Go α) : Go α := fun s =>
  match embedded with
  | none => (.panic "invalid memory address or nil pointer dereference", s)
  | some i => method i s

/-- Method `(*BytesKeyValWrapper).GetValue` (wrapper.go:168-174). -/
def BytesKeyValWrapper.GetValue (r : BytesKeyValWrapper) : Go Bytes := fun s =>
  match promoted r.BytesKeyVal BytesKeyVal.GetValue s with
  | (.panic m, s1) => (.panic m, s1)
  | (.ret raw, s1) =>
    match callDecrypt r.decryptData.decrypter (.bytes raw) r.decryptData.decryptFunc s1 with
    | ((_, some _), s2) => (.ret none, s2)
    | ((data, none), s2) => (assertBytes data, s2)

/-- Method `(*BytesKeyValWrapper).GetPrevValue` (wrapper.go:177-183). -/
def BytesKeyValWrapper.GetPrevValue (r : BytesKeyValWrapper) : Go Bytes := fun s =>
  match promoted r.BytesKeyVal BytesKeyVal.GetPrevValue s with
  | (.panic m, s1) => (.panic m, s1)
  | (.ret raw, s1) =>
    match callDecrypt r.decryptData.decrypter (.bytes raw) r.decryptData.decryptFunc s1 with
    | ((_, some _), s2) => (.ret none, s2)
    | ((data, none), s2) => (assertBytes data, s2)

/-- The interface value `keyval.BytesKeyVal` holding a `*BytesKeyValWrapper`:
`GetValue` and `GetPrevValue` are the methods above, the other accessors are
promoted from the embedded interface. -/
def BytesKeyValWrapper.asBytesKeyVal (r : BytesKeyValWrapper) : Cryptodata.BytesKeyVal :=
  { GetKey := promoted r.BytesKeyVal BytesKeyVal.GetKey
    GetValue := r.GetValue
    GetPrevValue := r.GetPrevValue
    GetRevision := promoted r.BytesKeyVal BytesKeyVal.GetRevision }

/-- Method `(*BytesWatchRespWrapper).GetValue` (wrapper.go:158-160). -/
def BytesWatchRespWrapper.GetValue (r : BytesWatchRespWrapper) : Go Bytes :=
  r.BytesKeyValWrapper.GetValue

/-- Method `(*BytesWatchRespWrapper).GetPrevValue` (wrapper.go:163-165). -/
def BytesWatchRespWrapper.GetPrevValue (r : BytesWatchRespWrapper) : Go Bytes :=
  r.BytesKeyValWrapper.GetPrevValue

/-- The interface value `keyval.BytesWatchResp` holding a `*BytesWatchRespWrapper`.
`GetKey`, `GetRevision` and `GetChangeType` are promoted from the embedded
`BytesWatchResp` (depth 1), which shadows the `BytesKeyVal` embedded in
`BytesKeyValWrapper` (depth 2). -/
def BytesWatchRespWrapper.asBytesWatchResp (r : BytesWatchRespWrapper) :
    Cryptodata.BytesWatchResp :=
  { GetKey := promoted r.BytesWatchResp (fun e => e.GetKey)
    GetValue := r.GetValue
    GetPrevValue := r.GetPrevValue
    GetRevision := promoted r.BytesWatchResp (fun e => e.GetRevision)
    GetChangeType := promoted r.BytesWatchResp BytesWatchResp.GetChangeType }

/-- Method `(*BytesKeyValIteratorWrapper).GetNext` (wrapper.go:188-196).  The
named results `kv` and `stop` are never assigned: they hold their zero values. -/
def BytesKeyValIteratorWrapper.GetNext (r : BytesKeyValIteratorWrapper) :
    Go (Option BytesKeyVal × Bool) := fun s =>
  let kv : Option BytesKeyVal := none
  let stop : Bool := false
  if stop then
    (.ret (kv, stop), s)
  else
    (.ret (some (BytesKeyValWrapper.asBytesKeyVal
      { BytesKeyVal := kv, decryptData := r.decryptData }), stop), s)

/-- The interface value `keyval.BytesKeyValIterator` holding a
`*BytesKeyValIteratorWrapper`. -/
def BytesKeyValIteratorWrapper.asBytesKeyValIterator (r : BytesKeyValIteratorWrapper) :
    Cryptodata.BytesKeyValIterator :=
  { GetNext := r.GetNext }

/-- Method `(*BytesBrokerWrapper).ListValues` (wrapper.go:131-140). -/
def BytesBrokerWrapper.ListValues (cbb : BytesBrokerWrapper) (key : String) :
    Go (Option BytesKeyValIterator × Err) := fun s =>
  match cbb.BytesBroker.ListValues key s with
  | (.panic m, s1) => (.panic m, s1)
  | (.ret (kv, err), s1) =>
    if err ≠ none then
      (.ret (kv, err), s1)
    else
      (.ret (some (BytesKeyValIteratorWrapper.asBytesKeyValIterator
        { BytesKeyValIterator := kv, decryptData := cbb.decryptData }), none), s1)

/-- The response handed to the caller for a raw watch event `resp`: the
composite literal of wrapper.go:147-153. -/
def wrapWatchResp (d : decryptData) (resp : Option BytesWatchResp) : BytesWatchResp :=
  BytesWatchRespWrapper.asBytesWatchResp
    { BytesWatchResp := resp
      BytesKeyValWrapper :=
        { BytesKeyVal := resp.map BytesWatchResp.toBytesKeyVal
          decryptData := d } }

/-- Method `(*BytesWatcherWrapper).Watch` (wrapper.go:145-155). -/
def BytesWatcherWrapper.Watch (b : BytesWatcherWrapper)
    (respChan : Option BytesWatchResp → St → St) (closeChan : Chan) (keys : List String) :
    Go Err :=
  b.BytesWatcher.Watch (fun resp => respChan (some (wrapWatchResp b.decryptData resp)))
    closeChan keys

/-- Method `(*ProtoBrokerWrapper).GetValue` (wrapper.go:241-249). -/
def ProtoBrokerWrapper.GetValue (db : ProtoBrokerWrapper) (key : String) (reqObj : MsgPtr) :
    Go (Bool × Int × Err) := fun s =>
  match db.ProtoBroker.GetValue key reqObj s with
  | (.panic m, s1) => (.panic m, s1)
  | (.ret (found, revision, err), s1) =>
    if !found || err.isSome then
      (.ret (found, revision, err), s1)
    else
      match callDecrypt db.decryptData.decrypter (.message reqObj) db.decryptData.decryptFunc s1 with
      | ((_, err), s2) => (.ret (found, revision, err), s2)

/-- Function `NewBytesWatcherWrapper` (wrapper.go:90-98). -/
def NewBytesWatcherWrapper (pb : BytesWatcher) (decrypter : ArbitraryDecrypter)
    (decryptFunc : DecryptFunc) : BytesWatcherWrapper :=
  { BytesWatcher := pb
    decryptData := { decryptFunc := decryptFunc, decrypter := decrypter } }

/-- Function `NewProtoBrokerWrapper` (wrapper.go:222-230). -/
def NewProtoBrokerWrapper (pb : ProtoBroker) (decrypter : ArbitraryDecrypter)
    (decryptFunc : DecryptFunc) : ProtoBrokerWrapper :=
  { ProtoBroker := pb
    decryptData := { decryptFunc := decryptFunc, decrypter := decrypter } }

/-- The interface value `keyval.BytesBroker` holding a `*BytesBrokerWrapper`. -/
def BytesBrokerWrapper.asBytesBroker (cbb : BytesBrokerWrapper) : Cryptodata.BytesBroker :=
  { GetValue := cbb.GetValue
    ListValues := cbb.ListValues }

/-- The interface value `keyval.BytesWatcher` holding a `*BytesWatcherWrapper`. -/
def BytesWatcherWrapper.asBytesWatcher (b : BytesWatcherWrapper) : Cryptodata.BytesWatcher :=
  { Watch := b.Watch }

/-- The interface value `keyval.ProtoBroker` holding a `*ProtoBrokerWrapper`. -/
def ProtoBrokerWrapper.asProtoBroker (db : ProtoBrokerWrapper) : Cryptodata.ProtoBroker :=
  { GetValue := db.GetValue }

/-- Modelled from the spec: interface `keyval.KvBytesPlugin`, the factory of raw
brokers and watchers scoped to a key prefix. -/
structure KvBytesPlugin where
  NewBroker : String → Go BytesBroker
  NewWatcher : String → Go BytesWatcher

/-- Modelled from the spec: interface `keyval.KvProtoPlugin`, the factory of raw
structured brokers scoped to a key prefix. -/
structure KvProtoPlugin where
  NewBroker : String → Go ProtoBroker

/-- Struct `KvBytesPluginWrapper` (wrapper.go:31-34). -/
structure KvBytesPluginWrapper where
  KvBytesPlugin : KvBytesPlugin
  decryptData : decryptData

/-- Struct `KvProtoPluginWrapper` (wrapper.go:199-202). -/
structure KvProtoPluginWrapper where
  KvProtoPlugin : KvProtoPlugin
  decryptData : decryptData

/-- Function `NewKvBytesPluginWrapper` (wrapper.go:68-76). -/
def NewKvBytesPluginWrapper (cbw : KvBytesPlugin) (decrypter : ArbitraryDecrypter)
    (decryptFunc : DecryptFunc) : KvBytesPluginWrapper :=
  { KvBytesPlugin := cbw
    decryptData := { decryptFunc := decryptFunc, decrypter := decrypter } }

/-- Function `NewKvProtoPluginWrapper` (wrapper.go:211-219). -/
def NewKvProtoPluginWrapper (kvp : KvProtoPlugin) (decrypter : ArbitraryDecrypter)
    (decryptFunc : DecryptFunc) : KvProtoPluginWrapper :=
  { KvProtoPlugin := kvp
    decryptData := { decryptFunc := decryptFunc, decrypter := decrypter } }

/-- Method `(*KvBytesPluginWrapper).NewBroker` (wrapper.go:103-105). -/
def KvBytesPluginWrapper.NewBroker (cbw : KvBytesPluginWrapper) (pfx : String) :
    Go BytesBroker := fun s =>
  match cbw.KvBytesPlugin.NewBroker pfx s with
  | (.panic m, s1) => (.panic m, s1)
  | (.ret raw, s1) =>
    (.ret (NewBytesBrokerWrapper raw cbw.decryptData.decrypter
      cbw.decryptData.decryptFunc).asBytesBroker, s1)

/-- Method `(*KvBytesPluginWrapper).NewWatcher` (wrapper.go:111-113). -/
def KvBytesPluginWrapper.NewWatcher (cbw : KvBytesPluginWrapper) (pfx : String) :
    Go BytesWatcher := fun s =>
  match cbw.KvBytesPlugin.NewWatcher pfx s with
  | (.panic m, s1) => (.panic m, s1)
  | (.ret raw, s1) =>
    (.ret (NewBytesWatcherWrapper raw cbw.decryptData.decrypter
      cbw.decryptData.decryptFunc).asBytesWatcher, s1)

/-- Method `(*KvProtoPluginWrapper).NewBroker` (wrapper.go:235-237). -/
def KvProtoPluginWrapper.NewBroker (kvp : KvProtoPluginWrapper) (pfx : String) :
    Go ProtoBroker := fun s =>
  match kvp.KvProtoPlugin.NewBroker pfx s with
  | (.panic m, s1) => (.panic m, s1)
  | (.ret raw, s1) =>
    (.ret (NewProtoBrokerWrapper raw kvp.decryptData.decrypter
      kvp.decryptData.decryptFunc).asProtoBroker, s1)

/-! ## Concrete collaborators -/

/-- A record returned by the store: every accessor returns the stored field. -/
def storedKeyVal (key : String) (value prevValue : Bytes) (revision : Int) : BytesKeyVal :=
  { GetKey := fun s => (.ret key, s)
    GetValue := fun s => (.ret value, s)
    GetPrevValue := fun s => (.ret prevValue, s)
    GetRevision := fun s => (.ret revision, s) }

/-- A watch event delivered by the store. -/
def storedWatchResp (changeType : PutDel) (key : String) (value prevValue : Bytes)
    (revision : Int) : BytesWatchResp :=
  { toBytesKeyVal := storedKeyVal key value prevValue revision
    GetChangeType := fun s => (.ret changeType, s) }

/-- A store cursor with no items left: `GetNext` reports `stop = true`. -/
def exhaustedIterator : BytesKeyValIterator :=
  { GetNext := fun s => (.ret (none, true), s) }

/-- A store broker answering from fixed tables. -/
def storeBroker (get : String → Bytes × Bool × Int × Err)
    (list : String → Option BytesKeyValIterator × Err) : BytesBroker :=
  { GetValue := fun key s => (.ret (get key), s)
    ListValues := fun key s => (.ret (list key), s) }

/-- A store watcher that delivers `events` to the callback, in order, and then
returns `err`. -/
def deliveringWatcher (events : List (Option BytesWatchResp)) (err : Err) : BytesWatcher :=
  { Watch := fun respChan _ _ s => (.ret err, events.foldl (fun s e => respChan e s) s) }

/-- Decryption of one byte string by the sample decrypter: an encrypted
payload is the plaintext behind a leading `0`. -/
def stripMarker : List Nat → Option (List Nat)
  | 0 :: plain => some plain
  | _ => none

/-- Decryption of every field of a message, failing when one is not encrypted. -/
def stripMarkers : Message → Option Message
  | [] => some []
  | f :: fs =>
    match stripMarker f, stripMarkers fs with
    | some p, some ps => some (p :: ps)
    | _, _ => none

/-- Replace the content of the message object at `p`. -/
def Heap.store (h : Heap) (p : MsgPtr) (m : Message) : Heap :=
  (p, m) :: h.filter (fun c => c.1 ≠ p)

/-- A sample decrypter: byte payloads are decrypted into fresh slices, message
objects are decrypted in place; anything that is not encrypted is an error. -/
def markerDecrypter : ArbitraryDecrypter :=
  { Decrypt := fun inData _ h =>
      match inData with
      | .bytes (some c) =>
        match stripMarker c with
        | some p => ((.bytes (some p), none), h)
        | none => ((.nil, some ⟨"not encrypted"⟩), h)
      | .message p =>
        match (h.lookup p).bind stripMarkers with
        | some m => ((.message p, none), h.store p m)
        | none => ((.nil, some ⟨"not encrypted"⟩), h)
      | _ => ((.nil, some ⟨"nothing to decrypt"⟩), h) }

/-- A store proto broker: `GetValue` deserializes the stored message into the
object `reqObj` points to. -/
def storeProtoBroker (get : String → Option (Message × Int)) : ProtoBroker :=
  { GetValue := fun key reqObj s =>
      match get key with
      | some (m, rev) => (.ret (true, rev, none), { s with heap := s.heap.store reqObj m })
      | none => (.ret (false, 0, none), { s with heap := s.heap.store reqObj [] }) }

/-- The state before any call: no message objects, no decryption yet. -/
def St.init : St := { heap := [], decryptCalls := [] }

/-- A consume-until-stop loop over an iterator, cut off after `fuel` calls of
`GetNext`: the pairs yielded, and whether `stop = true` was reached. -/
def consume (it : BytesKeyValIterator) : Nat → St → List (Option BytesKeyVal) × Bool
  | 0, _ => ([], false)
  | fuel + 1, s =>
    match it.GetNext s with
    | (.panic _, _) => ([], false)
    | (.ret (_, true), _) => ([], true)
    | (.ret (kv, false), s1) => (kv :: (consume it fuel s1).1, (consume it fuel s1).2)

/-- Position of the store cursor kept at `addr`. -/
def cursorPosition (h : Heap) (addr : Nat) : Nat :=
  match h.lookup addr with
  | some [[n]] => n
  | _ => 0

/-- A store cursor over `items`: each `GetNext` yields the next item and moves
the cursor kept at `addr`; after the last item it reports `stop = true`. -/
def storeIterator (addr : Nat) (items : List BytesKeyVal) : BytesKeyValIterator :=
  { GetNext := fun s =>
      match items.get? (cursorPosition s.heap addr) with
      | some kv =>
        (.ret (some kv, false),
          { s with heap := s.heap.store addr [[cursorPosition s.heap addr + 1]] })
      | none => (.ret (none, true), s) }

/-- A store plugin: every `NewBroker` and `NewWatcher` call leaves a message
object holding the characters of the prefix it was given, the newest first. -/
def storePlugin (broker : String → BytesBroker) (watcher : String → BytesWatcher) :
    KvBytesPlugin :=
  { NewBroker := fun pfx s =>
      (.ret (broker pfx), { s with heap := (s.heap.length, [pfx.toList.map Char.toNat]) :: s.heap })
    NewWatcher := fun pfx s =>
      (.ret (watcher pfx), { s with heap := (s.heap.length, [pfx.toList.map Char.toNat]) :: s.heap }) }

/-- A store plugin for structured messages, recording its calls as `storePlugin` does. -/
def storeProtoPlugin (broker : String → ProtoBroker) : KvProtoPlugin :=
  { NewBroker := fun pfx s =>
      (.ret (broker pfx), { s with heap := (s.heap.length, [pfx.toList.map Char.toNat]) :: s.heap }) }

/-- The state after `n` successive calls of `GetValue` on one decorated pair. -/
def readValueTimes (r : BytesKeyValWrapper) : Nat → St → St
  | 0, s => s
  | n + 1, s => readValueTimes r n (r.GetValue s).2

/-- The state after `n` successive calls of `GetPrevValue` on one decorated pair. -/
def readPrevValueTimes (r : BytesKeyValWrapper) : Nat → St → St
  | 0, s => s
  | n + 1, s => readPrevValueTimes r n (r.GetPrevValue s).2

/-- Decoration of a broker with a decrypt context, as an interface value again:
`NewBytesBrokerWrapper` followed by the conversion to `keyval.BytesBroker`. -/
def wrapBroker (b : BytesBroker) (ctx : decryptData) : BytesBroker :=
  (NewBytesBrokerWrapper b ctx.decrypter ctx.decryptFunc).asBytesBroker

/-- A decrypter that takes the marker off an encrypted byte payload and returns
any other byte payload as it is. -/
def lenientDecrypter : ArbitraryDecrypter :=
  { Decrypt := fun inData _ h =>
      match inData with
      | .bytes (some c) =>
        match stripMarker c with
        | some p => ((.bytes (some p), none), h)
        | none => ((.bytes (some c), none), h)
      | other => ((other, none), h) }

end Cryptodata

/-! ## `db/keyval/filedb/reader/reader_mock.go` -/

namespace Reader

open Cryptodata (GoError Err Outcome)

/-- Go `[]*File`: a list of pointers to file records (the type `File` is declared
elsewhere in the package); `none` is the nil slice, `some []` is `[]*File{}`. -/
abbrev Files := Option (List Nat)

/-- An item handed to `ThenReturn`: a Go `interface{}` value, by dynamic type. -/
inductive Item where
  | nil
  | bool (b : Bool)
  | files (fs : Files)
  | error (e : GoError)
  | other (tag : Nat)
  deriving DecidableEq, Repr

/-- Struct `WhenResp` (reader_mock.go:37-40).  The mock holds pointers to these
objects; `addr` is the identity of the object. -/
structure WhenResp where
  addr : Nat
  methodName : String
  items : List Item
  deriving DecidableEq, Repr

/-- Struct `FileDBReaderMock` (reader_mock.go:20-26), without the event channel.
`allocated` counts the `WhenResp` objects created so far. -/
structure FileDBReaderMock where
  responses : List WhenResp
  respCurr : Int
  respMax : Int
  allocated : Nat
  deriving DecidableEq, Repr

/-- Function `NewFileDBReaderMock` (reader_mock.go:29-34). -/
def NewFileDBReaderMock : FileDBReaderMock :=
  { responses := [], respCurr := 0, respMax := 0, allocated := 0 }

/-- Method `(*FileDBReaderMock).When` (reader_mock.go:44-50): the mock after the
call and the pointer to the new response. -/
def FileDBReaderMock.When (mock : FileDBReaderMock) (methodName : String) :
    FileDBReaderMock × Nat :=
  let resp : WhenResp := { addr := mock.allocated, methodName := methodName, items := [] }
  ({ mock with responses := mock.responses ++ [resp], allocated := mock.allocated + 1 },
    resp.addr)

/-- Method `(*WhenResp).ThenReturn` (reader_mock.go:64-66), on the object that
`when` points to. -/
def WhenResp.ThenReturn (mock : FileDBReaderMock) (when : Nat) (item : List Item) :
    FileDBReaderMock :=
  { mock with
    responses := mock.responses.map
      (fun r => if r.addr = when then { r with items := item } else r) }

/-- The chained call `mock.When(methodName).ThenReturn(item...)`. -/
def FileDBReaderMock.register (mock : FileDBReaderMock) (methodName : String)
    (item : List Item) : FileDBReaderMock :=
  WhenResp.ThenReturn (mock.When methodName).1 (mock.When methodName).2 item

/-- The `for i, resp := range mock.responses` loop of `getReturnValues`
(reader_mock.go:70-76), from index `i` on, `rest` being `mock.responses[i:]`. -/
def FileDBReaderMock.getReturnValuesLoop (mock : FileDBReaderMock) (name : String) :
    Nat → List WhenResp → List Item × FileDBReaderMock
  | _, [] => ([], mock)
  | i, resp :: rest =>
    if resp.methodName = name then
      (resp.items,
        { mock with responses := mock.responses.take i ++ mock.responses.drop (i + 1) })
    else
      getReturnValuesLoop mock name (i + 1) rest

/-- Method `(*FileDBReaderMock).getReturnValues` (reader_mock.go:69-79): the
response items and the mock after the call. -/
def FileDBReaderMock.getReturnValues (mock : FileDBReaderMock) (name : String) :
    List Item × FileDBReaderMock :=
  mock.getReturnValuesLoop name 0 mock.responses

/-- Expression `items[0].(bool)`. -/
def firstAsBool : List Item → Outcome Bool
  | [] => .panic "index out of range [0] with length 0"
  | .bool b :: _ => .ret b
  | _ :: _ => .panic "interface conversion: interface is not bool"

/-- Method `(*FileDBReaderMock).IsValid` (reader_mock.go:82-85). -/
def FileDBReaderMock.IsValid (mock : FileDBReaderMock) (_path : String) :
    Outcome Bool × FileDBReaderMock :=
  let r := mock.getReturnValues "IsValid"
  (firstAsBool r.1, r.2)

/-- Method `(*FileDBReaderMock).PathExists` (reader_mock.go:88-91). -/
def FileDBReaderMock.PathExists (mock : FileDBReaderMock) (_path : String) :
    Outcome Bool × FileDBReaderMock :=
  let r := mock.getReturnValues "PathExists"
  (firstAsBool r.1, r.2)

/-- Type assertion `x.([]*File)`. -/
def assertFiles : Item → Outcome Files
  | .files fs => .ret fs
  | _ => .panic "interface conversion: interface is not []*reader.File"

/-- Type assertion `x.(error)`; it fails on the nil interface. -/
def assertError : Item → Outcome GoError
  | .error e => .ret e
  | .nil => .panic "interface conversion: interface is nil, not error"
  | _ => .panic "interface conversion: interface is not error: missing method Error"

/-- Method `(*FileDBReaderMock).ProcessFiles` (reader_mock.go:94-107). -/
def FileDBReaderMock.ProcessFiles (mock : FileDBReaderMock) (_path : String) :
    Outcome (Files × Err) × FileDBReaderMock :=
  let r := mock.getReturnValues "ProcessFiles"
  let items := r.1
  if items.length = 1 then
    match items.head? with
    | some (.files typed) => (.ret (typed, none), r.2)
    | some (.error typed) => (.ret (some [], some typed), r.2)
    | _ => (.ret (some [], none), r.2)
  else if items.length = 2 then
    match items.head?.elim (.panic "index out of range") assertFiles,
        (items.get? 1).elim (.panic "index out of range") assertError with
    | .panic m, _ => (.panic m, r.2)
    | .ret _, .panic m => (.panic m, r.2)
    | .ret fs, .ret e => (.ret (fs, some e), r.2)
  else
    (.ret (some [], none), r.2)

/-- The items returned by `n` successive calls of `getReturnValues(name)`. -/
def answers (name : String) : Nat → FileDBReaderMock → List (List Item)
  | 0, _ => []
  | n + 1, mock =>
    (mock.getReturnValues name).1 :: answers name n (mock.getReturnValues name).2

/-- A sequence of registrations `When(name).ThenReturn(items...)`, in order. -/
def registerAll (mock : FileDBReaderMock) (regs : List (String × List Item)) :
    FileDBReaderMock :=
  regs.foldl (fun m r => m.register r.1 r.2) mock

/-- Every queued response was allocated by the mock. -/
def WellFormed (mock : FileDBReaderMock) : Prop :=
  ∀ r ∈ mock.responses, r.addr < mock.allocated

end Reader

/-! ## `rpc/grpc/plugin_impl_grpc.go` -/

namespace Grpc

open Cryptodata (GoError Err)

/-- Struct `Config`, declared elsewhere in the package: the field this file reads. -/
structure Config where
  Endpoint : String
  deriving DecidableEq, Repr

/-- A `*grpc.Server`, identified by the options it was created with. -/
structure Server where
  opts : List Nat
  deriving DecidableEq, Repr

/-- Handle of a network listener (`io.Closer`). -/
abbrev Listener := Nat

/-- Calls that leave the plugin, in the order they are made. -/
inductive Effect where
  | NewServer (opts : List Nat)
  | SetLogger (name : String)
  | ListenAndServe (cfg : Config) (srv : Server)
  | Info (msg : String)
  deriving DecidableEq, Repr

/-- Struct `Deps` (plugin_impl_grpc.go:44-47) as far as `Init` uses it: the
configuration lookup `Cfg.LoadValue(&grpcCfg)`, from the zero configuration to
the configuration as filled in, the found flag and the error. -/
structure Deps where
  LoadValue : Config → Config × Bool × Err

/-- Functions of the package and of the grpc library that `Init` calls and that
are declared outside this file. -/
structure Env where
  getGrpcOptions : Config → List Nat
  ListenAndServe : Config → Server → Option Listener × Err

/-- Struct `Plugin` (plugin_impl_grpc.go:30-41). -/
structure Plugin where
  Deps : Deps
  Config : Option Config
  grpcServer : Option Server
  netListener : Option Listener
  disabled : Bool

/-- Method `(*Plugin).getGrpcConfig` (plugin_impl_grpc.go:110-121): the returned
configuration and error, the plugin and the calls made so far. -/
def Plugin.getGrpcConfig (plugin : Plugin) (log : List Effect) :
    (Grpc.Config × Err) × Plugin × List Effect :=
  let grpcCfg : Grpc.Config := { Endpoint := "" }
  let r := plugin.Deps.LoadValue grpcCfg
  if r.2.2.isSome then
    ((r.1, r.2.2), plugin, log)
  else if !r.2.1 then
    ((r.1, none), { plugin with disabled := true },
      log ++ [.Info "GRPC config not found, skip loading this plugin"])
  else
    ((r.1, none), plugin, log)

/-- The part of `Init` after the configuration is known (plugin_impl_grpc.go:59-73):
prepare the server if there is none, then start the listener. -/
def Plugin.startServer (env : Env) (cfg : Grpc.Config) (plugin : Plugin) (log : List Effect) :
    Err × Plugin × List Effect :=
  let prepared : Plugin × List Effect :=
    match plugin.grpcServer with
    | none =>
      ({ plugin with grpcServer := some ⟨env.getGrpcOptions cfg⟩ },
        log ++ [.NewServer (env.getGrpcOptions cfg), .SetLogger "grpc-server"])
    | some _ => (plugin, log)
  let srv : Server := prepared.1.grpcServer.getD ⟨env.getGrpcOptions cfg⟩
  let r := env.ListenAndServe cfg srv
  let plugin2 : Plugin := { prepared.1 with netListener := r.1 }
  let log2 := prepared.2 ++ [.ListenAndServe cfg srv]
  if r.2.isSome then
    (r.2, plugin2, log2)
  else
    (none, plugin2, log2 ++ [.Info ("Listening GRPC on: " ++ cfg.Endpoint)])

/-- Method `(*Plugin).Init` (plugin_impl_grpc.go:50-74): the returned error, the
plugin and the calls made so far. -/
def Plugin.Init (env : Env) (plugin : Plugin) (log : List Effect) :
    Err × Plugin × List Effect :=
  match plugin.Config with
  | none =>
    let r := plugin.getGrpcConfig log
    let plugin1 : Plugin := { r.2.1 with Config := some r.1.1 }
    if r.1.2.isSome || plugin1.disabled then
      (r.1.2, plugin1, r.2.2)
    else
      Plugin.startServer env r.1.1 plugin1 r.2.2
  | some cfg => Plugin.startServer env cfg plugin log

/-- Method `(*Plugin).IsDisabled` (plugin_impl_grpc.go:106-108). -/
def Plugin.IsDisabled (plugin : Plugin) : Bool :=
  plugin.disabled

/-- Method `(*Plugin).GetServer` (plugin_impl_grpc.go:100-102). -/
def Plugin.GetServer (plugin : Plugin) : Option Server :=
  plugin.grpcServer

/-- An environment in which the listener starts without error. -/
def listeningEnv : Env :=
  { getGrpcOptions := fun _ => []
    ListenAndServe := fun _ _ => (some 1, none) }

/-- A new plugin with no preset configuration whose lookup finds no
configuration and reports no error. -/
def unconfiguredPlugin : Plugin :=
  { Deps := { LoadValue := fun grpcCfg => (grpcCfg, false, none) }
    Config := none
    grpcServer := none
    netListener := none
    disabled := false }

end Grpc

/-! ## `db/sql/cassandra/options.go` -/

namespace Cassandra

/-- A plugin logger (`logging.PluginLogger`), by the name it was created for. -/
structure Logger where
  name : String
  deriving DecidableEq, Repr

/-- A plugin configuration (`config.PluginConfig`), by the name it was created for. -/
structure PluginConfig where
  name : String
  deriving DecidableEq, Repr

/-- A status writer (`statuscheck.PluginStatusWriter`). -/
structure StatusCheck where
  id : Nat
  deriving DecidableEq, Repr

/-- Struct `Deps`, declared elsewhere in the package: the fields `NewPlugin` reads
and fills. -/
structure Deps where
  PluginName : String
  Log : Option Logger
  PluginConfig : Option PluginConfig
  StatusCheck : Option StatusCheck
  deriving DecidableEq, Repr

/-- Struct `Plugin`, declared elsewhere in the package: its dependencies. -/
structure Plugin where
  Deps : Deps
  deriving DecidableEq, Repr

/-- Type `Option` of options.go:38, a function that acts on a plugin; the name is
changed because `Option` is taken. -/
abbrev PluginOption := Plugin → Plugin

/-- Defaults that `NewPlugin` takes from other packages: `logging.ForPlugin`,
`config.ForPlugin` and `statuscheck.DefaultPlugin`. -/
structure Defaults where
  logForPlugin : String → Logger
  configForPlugin : String → PluginConfig
  defaultStatusCheck : StatusCheck

/-- Function `UseDeps` (options.go:41-45). -/
def UseDeps (deps : Deps) : PluginOption :=
  fun p => { p with Deps := deps }

/-- The loop over `opts` that applies each option to the zero plugin, in argument
order (options.go:15-19). -/
def applyOptions (opts : List PluginOption) : Plugin :=
  opts.foldl (fun p o => o p)
    { Deps := { PluginName := "", Log := none, PluginConfig := none, StatusCheck := none } }

/-- Function `NewPlugin` (options.go:14-35). -/
def NewPlugin (ext : Defaults) (opts : List PluginOption) : Plugin :=
  let p := applyOptions opts
  let p : Plugin :=
    if p.Deps.PluginName = "" then { p with Deps := { p.Deps with PluginName := "cassandra" } }
    else p
  let p : Plugin :=
    if p.Deps.Log.isNone then
      { p with Deps := { p.Deps with Log := some (ext.logForPlugin p.Deps.PluginName) } }
    else p
  let p : Plugin :=
    if p.Deps.PluginConfig.isNone then
      { p with Deps :=
          { p.Deps with PluginConfig := some (ext.configForPlugin p.Deps.PluginName) } }
    else p
  let p : Plugin :=
    if p.Deps.StatusCheck.isNone then
      { p with Deps := { p.Deps with StatusCheck := some ext.defaultStatusCheck } }
    else p
  p

end Cassandra

namespace Cryptodata

/-! ## Single-value fetch through the decorated broker -/

/-- C1: when the wrapped broker returns `(c, true, rev, nil)` for the key and the
decrypter turns `c` into the plaintext `p` without error, the decorated
`GetValue` returns exactly `(p, true, rev, nil)`. -/
theorem C1_GetValue_returns_plaintext (pb : BytesBroker) (D : ArbitraryDecrypter)
    (decryptFunc : DecryptFunc) (key : String) (c p : Bytes) (rev : Int) (s s1 : St) (h2 : Heap)
    (hraw : pb.GetValue key s = (.ret (c, true, rev, none), s1))
    (hdec : D.Decrypt (.bytes c) decryptFunc s1.heap = ((.bytes p, none), h2)) :
    ((NewBytesBrokerWrapper pb D decryptFunc).GetValue key s).1 = .ret (p, true, rev, none) := by
  simp [BytesBrokerWrapper.GetValue, NewBytesBrokerWrapper, hraw, callDecrypt, hdec, assertBytes]

/-- Witness of C1: a store holding the encrypted payload `0 :: [1, 2]` under `/a`. -/
theorem C1_GetValue_returns_plaintext_witness :
    ((NewBytesBrokerWrapper (storeBroker (fun _ => (some [0, 1, 2], true, 7, none))
        (fun _ => (none, none))) markerDecrypter ⟨0⟩).GetValue "/a" St.init).1
      = .ret (some [1, 2], true, 7, none) :=
  C1_GetValue_returns_plaintext _ markerDecrypter ⟨0⟩ "/a" (some [0, 1, 2]) (some [1, 2]) 7
    St.init St.init [] rfl rfl

/-- The decorated `GetValue` calls the decrypter whenever the wrapped call
returns without error, whatever `found` is. -/
theorem GetValue_decrypts_when_no_error (cbb : BytesBrokerWrapper) (key : String) (data : Bytes)
    (found : Bool) (rev : Int) (s s1 : St)
    (hraw : cbb.BytesBroker.GetValue key s = (.ret (data, found, rev, none), s1)) :
    (cbb.GetValue key s).2.decryptCalls
      = s1.decryptCalls ++ [⟨.bytes data, cbb.decryptData.decryptFunc⟩] := by
  rcases hD : cbb.decryptData.decrypter.Decrypt (.bytes data) cbb.decryptData.decryptFunc s1.heap
    with ⟨⟨v, e⟩, h⟩
  cases e <;> cases v <;>
    simp [BytesBrokerWrapper.GetValue, hraw, callDecrypt, hD, assertBytes]

/-- C2 (evaluation at the failing input): the wrapped broker reports the key as
not found, `(nil, false, 0, nil)`; the decorated `GetValue` still calls `Decrypt`
once, on the nil payload, and returns the decrypter error instead of the
unchanged tuple. -/
theorem C2_GetValue_not_found_still_decrypts :
    (storeBroker (fun _ => (none, false, 0, none)) (fun _ => (none, none))).GetValue "/a" St.init
        = (.ret (none, false, 0, none), St.init)
    ∧ (NewBytesBrokerWrapper (storeBroker (fun _ => (none, false, 0, none))
          (fun _ => (none, none))) markerDecrypter ⟨0⟩).GetValue "/a" St.init
        = (.ret (none, false, 0, some ⟨"nothing to decrypt"⟩),
            { heap := [], decryptCalls := [⟨.bytes none, ⟨0⟩⟩] }) := by
  constructor <;> rfl

/-! ## Iteration -/

/-- C3 (evaluation of the code): `GetNext` of the decorated iterator never calls
the wrapped iterator.  Whatever the wrapped iterator is, it returns
`stop = false` with a decrypting pair built on a nil raw pair and leaves the
state as it was; on a wrapped iterator that reports `stop = true` the result
is therefore not `(nil, true)`. -/
theorem C3_GetNext_ignores_wrapped_iterator :
    (∀ (r : BytesKeyValIteratorWrapper) (s : St),
        r.GetNext s
          = (.ret (some (BytesKeyValWrapper.asBytesKeyVal
              { BytesKeyVal := none, decryptData := r.decryptData }), false), s))
    ∧ (exhaustedIterator.GetNext St.init).1 = .ret (none, true)
    ∧ (∀ d : decryptData,
        ((BytesKeyValIteratorWrapper.mk (some exhaustedIterator) d).GetNext St.init).1
          ≠ .ret (none, true)) := by
  refine ⟨fun r s => rfl, rfl, fun d h => ?_⟩
  simp [BytesKeyValIteratorWrapper.GetNext] at h

/-- C4 (evaluation at the failing input, N = 0): the wrapped `ListValues`
succeeds with an iterator that yields no pair and stops at once.  The decorated
`ListValues` succeeds too, but a consume-until-stop loop over its iterator
yields a pair at every call and never sees `stop = true`: after `n` calls it
holds `n` pairs, for every `n`. -/
theorem C4_ListValues_iterator_never_stops (d : decryptData) (key : String) (s : St) :
    consume exhaustedIterator 1 s = ([], true)
    ∧ ∃ it : BytesKeyValIterator,
        (BytesBrokerWrapper.ListValues
            ⟨storeBroker (fun _ => (none, false, 0, none)) (fun _ => (some exhaustedIterator, none)), d⟩
            key s).1 = .ret (some it, none)
        ∧ ∀ n : Nat, ((consume it n s).1.length = n ∧ (consume it n s).2 = false) := by
  refine ⟨rfl, _, rfl, fun n => ?_⟩
  induction n with
  | zero => exact ⟨rfl, rfl⟩
  | succ k ih =>
    simp only [consume, BytesKeyValIteratorWrapper.asBytesKeyValIterator,
      BytesKeyValIteratorWrapper.GetNext] at ih ⊢
    simpa using ih

/-! ## Watch subscription and the decrypting accessors -/

/-- C5: the decorated `Watch` hands every raw event of the wrapped watcher to the
caller callback exactly once, in order, wrapped as a decrypting response `r`.
The key, revision and change type of `r` are those of the raw event, `r.GetValue`
is the plaintext of the raw value and `r.GetPrevValue` the plaintext of the raw
previous value. -/
theorem C5_Watch_delivers_decrypting_responses (d : decryptData)
    (events : List (Option BytesWatchResp)) (err : Err)
    (respChan : Option BytesWatchResp → St → St) (closeChan : Chan) (keys : List String)
    (s0 : St) :
    BytesWatcherWrapper.Watch ⟨deliveringWatcher events err, d⟩ respChan closeChan keys s0
      = (.ret err,
          (events.map (fun e => some (wrapWatchResp d e))).foldl (fun s r => respChan r s) s0)
    ∧ ∀ e : BytesWatchResp,
        (wrapWatchResp d (some e)).GetKey = e.GetKey
        ∧ (wrapWatchResp d (some e)).GetChangeType = e.GetChangeType
        ∧ (wrapWatchResp d (some e)).GetRevision = e.GetRevision
        ∧ (∀ (s s1 : St) (c p : Bytes) (h2 : Heap),
            e.GetValue s = (.ret c, s1) →
            d.decrypter.Decrypt (.bytes c) d.decryptFunc s1.heap = ((.bytes p, none), h2) →
            (wrapWatchResp d (some e)).GetValue s
              = (.ret p, ⟨h2, s1.decryptCalls ++ [⟨.bytes c, d.decryptFunc⟩]⟩))
        ∧ (∀ (s s1 : St) (c p : Bytes) (h2 : Heap),
            e.GetPrevValue s = (.ret c, s1) →
            d.decrypter.Decrypt (.bytes c) d.decryptFunc s1.heap = ((.bytes p, none), h2) →
            (wrapWatchResp d (some e)).GetPrevValue s
              = (.ret p, ⟨h2, s1.decryptCalls ++ [⟨.bytes c, d.decryptFunc⟩]⟩)) := by
  refine ⟨?_, fun e => ⟨rfl, rfl, rfl, ?_, ?_⟩⟩
  · simp [BytesWatcherWrapper.Watch, deliveringWatcher, List.foldl_map]
  · intro s s1 c p h2 hv hd
    simp [wrapWatchResp, BytesWatchRespWrapper.asBytesWatchResp, BytesWatchRespWrapper.GetValue,
      BytesKeyValWrapper.GetValue, promoted, hv, callDecrypt, hd, assertBytes]
  · intro s s1 c p h2 hv hd
    simp [wrapWatchResp, BytesWatchRespWrapper.asBytesWatchResp,
      BytesWatchRespWrapper.GetPrevValue, BytesKeyValWrapper.GetPrevValue, promoted, hv,
      callDecrypt, hd, assertBytes]

/-- Witness of C5: the raw event `{ key: /a, value: encrypt(v1), prevValue: encrypt(v0) }`
reaches the callback once, and the response reads `v1` and `v0`. -/
theorem C5_Watch_delivers_decrypting_responses_witness :
    (wrapWatchResp ⟨⟨0⟩, markerDecrypter⟩
        (some (storedWatchResp .Put "/a" (some [0, 118, 49]) (some [0, 118, 48]) 3))).GetValue
        St.init
      = (.ret (some [118, 49]), ⟨[], [⟨.bytes (some [0, 118, 49]), ⟨0⟩⟩]⟩)
    ∧ (wrapWatchResp ⟨⟨0⟩, markerDecrypter⟩
        (some (storedWatchResp .Put "/a" (some [0, 118, 49]) (some [0, 118, 48]) 3))).GetPrevValue
        St.init
      = (.ret (some [118, 48]), ⟨[], [⟨.bytes (some [0, 118, 48]), ⟨0⟩⟩]⟩)
    ∧ BytesWatcherWrapper.Watch
        ⟨deliveringWatcher [some (storedWatchResp .Put "/a" (some [0, 118, 49]) (some [0, 118, 48]) 3)]
          none, ⟨⟨0⟩, markerDecrypter⟩⟩
        (fun r s => match r with
          | some r => (r.GetValue s).2
          | none => s) 0 ["/a"] St.init
      = (.ret none, ⟨[], [⟨.bytes (some [0, 118, 49]), ⟨0⟩⟩]⟩) :=
  ⟨((C5_Watch_delivers_decrypting_responses ⟨⟨0⟩, markerDecrypter⟩ [] none (fun _ s => s) 0 []
      St.init).2 (storedWatchResp .Put "/a" (some [0, 118, 49]) (some [0, 118, 48]) 3)).2.2.2.1
      St.init St.init _ _ [] rfl rfl,
   ((C5_Watch_delivers_decrypting_responses ⟨⟨0⟩, markerDecrypter⟩ [] none (fun _ s => s) 0 []
      St.init).2 (storedWatchResp .Put "/a" (some [0, 118, 49]) (some [0, 118, 48]) 3)).2.2.2.2
      St.init St.init _ _ [] rfl rfl,
   (C5_Watch_delivers_decrypting_responses ⟨⟨0⟩, markerDecrypter⟩
      [some (storedWatchResp .Put "/a" (some [0, 118, 49]) (some [0, 118, 48]) 3)] none
      (fun r s => match r with
        | some r => (r.GetValue s).2
        | none => s) 0 ["/a"] St.init).1.trans rfl⟩

/-- C6: when `Decrypt` fails on the raw value (respectively the raw previous
value), `GetValue` (respectively `GetPrevValue`) of a decrypting pair, and of a
decrypting watch response built on it, returns the nil payload without a panic;
the state after the call is the one the raw accessor and the decrypter left, the
decorator writes nothing. -/
theorem C6_accessors_swallow_decrypt_error (d : decryptData) (kv : BytesKeyVal)
    (resp : Option BytesWatchResp) :
    (∀ (s s1 : St) (raw : Bytes) (v : Value) (e : GoError) (h2 : Heap),
        kv.GetValue s = (.ret raw, s1) →
        d.decrypter.Decrypt (.bytes raw) d.decryptFunc s1.heap = ((v, some e), h2) →
        (BytesKeyValWrapper.mk (some kv) d).GetValue s
            = (.ret none, ⟨h2, s1.decryptCalls ++ [⟨.bytes raw, d.decryptFunc⟩]⟩)
        ∧ (BytesWatchRespWrapper.mk resp ⟨some kv, d⟩).GetValue s
            = (.ret none, ⟨h2, s1.decryptCalls ++ [⟨.bytes raw, d.decryptFunc⟩]⟩))
    ∧ (∀ (s s1 : St) (raw : Bytes) (v : Value) (e : GoError) (h2 : Heap),
        kv.GetPrevValue s = (.ret raw, s1) →
        d.decrypter.Decrypt (.bytes raw) d.decryptFunc s1.heap = ((v, some e), h2) →
        (BytesKeyValWrapper.mk (some kv) d).GetPrevValue s
            = (.ret none, ⟨h2, s1.decryptCalls ++ [⟨.bytes raw, d.decryptFunc⟩]⟩)
        ∧ (BytesWatchRespWrapper.mk resp ⟨some kv, d⟩).GetPrevValue s
            = (.ret none, ⟨h2, s1.decryptCalls ++ [⟨.bytes raw, d.decryptFunc⟩]⟩)) := by
  constructor
  · intro s s1 raw v e h2 hv hd
    simp [BytesWatchRespWrapper.GetValue, BytesKeyValWrapper.GetValue, promoted, hv,
      callDecrypt, hd]
  · intro s s1 raw v e h2 hv hd
    simp [BytesWatchRespWrapper.GetPrevValue, BytesKeyValWrapper.GetPrevValue, promoted, hv,
      callDecrypt, hd]

/-- Witness of C6: a stored pair whose value and previous value are not encrypted. -/
theorem C6_accessors_swallow_decrypt_error_witness :
    (BytesKeyValWrapper.mk (some (storedKeyVal "/a" (some [5]) (some [6]) 1))
        ⟨⟨0⟩, markerDecrypter⟩).GetValue St.init
      = (.ret none, ⟨[], [⟨.bytes (some [5]), ⟨0⟩⟩]⟩)
    ∧ (BytesKeyValWrapper.mk (some (storedKeyVal "/a" (some [5]) (some [6]) 1))
        ⟨⟨0⟩, markerDecrypter⟩).GetPrevValue St.init
      = (.ret none, ⟨[], [⟨.bytes (some [6]), ⟨0⟩⟩]⟩) :=
  ⟨((C6_accessors_swallow_decrypt_error ⟨⟨0⟩, markerDecrypter⟩
      (storedKeyVal "/a" (some [5]) (some [6]) 1) none).1
      St.init St.init (some [5]) .nil ⟨"not encrypted"⟩ [] rfl rfl).1,
   ((C6_accessors_swallow_decrypt_error ⟨⟨0⟩, markerDecrypter⟩
      (storedKeyVal "/a" (some [5]) (some [6]) 1) none).2
      St.init St.init (some [6]) .nil ⟨"not encrypted"⟩ [] rfl rfl).1⟩

/-- C7: when the wrapped broker returns `(c, found, rev, nil)` and `Decrypt` fails
on `c` with error `e`, the decorated `GetValue` returns `e`, with `found` and `rev`
as the wrapped broker returned them and the raw `c` as data. -/
theorem C7_GetValue_propagates_decrypt_error (pb : BytesBroker) (D : ArbitraryDecrypter)
    (decryptFunc : DecryptFunc) (key : String) (c : Bytes) (found : Bool) (rev : Int)
    (s s1 : St) (v : Value) (e : GoError) (h2 : Heap)
    (hraw : pb.GetValue key s = (.ret (c, found, rev, none), s1))
    (hdec : D.Decrypt (.bytes c) decryptFunc s1.heap = ((v, some e), h2)) :
    ((NewBytesBrokerWrapper pb D decryptFunc).GetValue key s).1
      = .ret (c, found, rev, some e) := by
  simp [BytesBrokerWrapper.GetValue, NewBytesBrokerWrapper, hraw, callDecrypt, hdec]

/-- Witness of C7: the stored payload `[5]` is not encrypted. -/
theorem C7_GetValue_propagates_decrypt_error_witness :
    ((NewBytesBrokerWrapper (storeBroker (fun _ => (some [5], true, 7, none))
        (fun _ => (none, none))) markerDecrypter ⟨0⟩).GetValue "/a" St.init).1
      = .ret (some [5], true, 7, some ⟨"not encrypted"⟩) :=
  C7_GetValue_propagates_decrypt_error _ markerDecrypter ⟨0⟩ "/a" (some [5]) true 7
    St.init St.init .nil ⟨"not encrypted"⟩ [] rfl rfl

/-! ## Delegation errors -/

/-- C8: a non-nil error of the wrapped operation comes back verbatim.  `GetValue`
returns the wrapped data, found flag, revision and error, `ListValues` the
wrapped iterator (not decorated) and error, `Watch` the wrapped error; in each
case the state after the call is the one the wrapped operation left, so no call
of `Decrypt` is recorded. -/
theorem C8_delegation_errors_verbatim :
    (∀ (cbb : BytesBrokerWrapper) (key : String) (data : Bytes) (found : Bool) (rev : Int)
        (e : GoError) (s s1 : St),
        cbb.BytesBroker.GetValue key s = (.ret (data, found, rev, some e), s1) →
        cbb.GetValue key s = (.ret (data, found, rev, some e), s1))
    ∧ (∀ (cbb : BytesBrokerWrapper) (key : String) (kv : Option BytesKeyValIterator)
        (e : GoError) (s s1 : St),
        cbb.BytesBroker.ListValues key s = (.ret (kv, some e), s1) →
        cbb.ListValues key s = (.ret (kv, some e), s1))
    ∧ (∀ (b : BytesWatcherWrapper) (respChan : Option BytesWatchResp → St → St)
        (closeChan : Chan) (keys : List String) (e : GoError) (s s1 : St),
        b.BytesWatcher.Watch (fun resp => respChan (some (wrapWatchResp b.decryptData resp)))
            closeChan keys s = (.ret (some e), s1) →
        b.Watch respChan closeChan keys s = (.ret (some e), s1))
    ∧ (∀ (d : decryptData) (events : List (Option BytesWatchResp)) (e : GoError)
        (respChan : Option BytesWatchResp → St → St) (closeChan : Chan) (keys : List String)
        (s : St),
        (∀ r t, (respChan r t).decryptCalls = t.decryptCalls) →
        (BytesWatcherWrapper.Watch ⟨deliveringWatcher events (some e), d⟩ respChan closeChan
            keys s).1 = .ret (some e)
        ∧ (BytesWatcherWrapper.Watch ⟨deliveringWatcher events (some e), d⟩ respChan closeChan
            keys s).2.decryptCalls = s.decryptCalls) := by
  refine ⟨?_, ?_, ?_, ?_⟩
  · intro cbb key data found rev e s s1 h
    simp [BytesBrokerWrapper.GetValue, h]
  · intro cbb key kv e s s1 h
    simp [BytesBrokerWrapper.ListValues, h]
  · intro b respChan closeChan keys e s s1 h
    simpa [BytesWatcherWrapper.Watch] using h
  · intro d events e respChan closeChan keys s hcb
    refine ⟨rfl, ?_⟩
    simp only [BytesWatcherWrapper.Watch, deliveringWatcher]
    induction events generalizing s with
    | nil => rfl
    | cons ev evs ih => rw [List.foldl_cons, ih, hcb]

/-- Witness of C8: a store whose `GetValue` and `ListValues` fail, and a watcher
that delivers one event and fails. -/
theorem C8_delegation_errors_verbatim_witness :
    (NewBytesBrokerWrapper (storeBroker (fun _ => (some [0, 1], true, 7, some ⟨"down"⟩))
        (fun _ => (some exhaustedIterator, some ⟨"down"⟩))) markerDecrypter ⟨0⟩).GetValue "/a"
        St.init
      = (.ret (some [0, 1], true, 7, some ⟨"down"⟩), St.init)
    ∧ (NewBytesBrokerWrapper (storeBroker (fun _ => (some [0, 1], true, 7, some ⟨"down"⟩))
        (fun _ => (some exhaustedIterator, some ⟨"down"⟩))) markerDecrypter ⟨0⟩).ListValues "/a"
        St.init
      = (.ret (some exhaustedIterator, some ⟨"down"⟩), St.init)
    ∧ (BytesWatcherWrapper.Watch
        ⟨deliveringWatcher [some (storedWatchResp .Put "/a" (some [0, 1]) none 1)]
          (some ⟨"down"⟩), ⟨⟨0⟩, markerDecrypter⟩⟩
        (fun _ t => ⟨(1, []) :: t.heap, t.decryptCalls⟩) 0 ["/a"] St.init).2.decryptCalls
      = [] :=
  ⟨C8_delegation_errors_verbatim.1 _ "/a" (some [0, 1]) true 7 ⟨"down"⟩ St.init St.init rfl,
   C8_delegation_errors_verbatim.2.1 _ "/a" (some exhaustedIterator) ⟨"down"⟩ St.init St.init
     rfl,
   (C8_delegation_errors_verbatim.2.2.2 ⟨⟨0⟩, markerDecrypter⟩
     [some (storedWatchResp .Put "/a" (some [0, 1]) none 1)] ⟨"down"⟩
     (fun _ t => ⟨(1, []) :: t.heap, t.decryptCalls⟩) 0 ["/a"] St.init (fun _ _ => rfl)).2⟩

/-! ## Structured-message variant -/

/-- C9: when the wrapped proto broker returns `(true, rev, nil)`, the decorated
`GetValue` calls `Decrypt` exactly once, on the message object with the
`decryptFunc` of the decorator, on the state the wrapped call left, and returns
`(true, rev, err)` with `err` the error of that call; the message is left as
`Decrypt` left it. -/
theorem C9_proto_GetValue_decrypts_once (pb : ProtoBroker) (D : ArbitraryDecrypter)
    (decryptFunc : DecryptFunc) (key : String) (reqObj : MsgPtr) (rev : Int) (s s1 : St)
    (v : Value) (err : Err) (h2 : Heap)
    (hraw : pb.GetValue key reqObj s = (.ret (true, rev, none), s1))
    (hdec : D.Decrypt (.message reqObj) decryptFunc s1.heap = ((v, err), h2)) :
    (NewProtoBrokerWrapper pb D decryptFunc).GetValue key reqObj s
      = (.ret (true, rev, err),
          ⟨h2, s1.decryptCalls ++ [⟨.message reqObj, decryptFunc⟩]⟩) := by
  simp [ProtoBrokerWrapper.GetValue, NewProtoBrokerWrapper, hraw, callDecrypt, hdec]

/-- Witness of C9: the stored message has the encrypted fields `0 :: [1]` and
`0 :: [2]`; after the call the message object at address 5 holds `[1]` and `[2]`. -/
theorem C9_proto_GetValue_decrypts_once_witness :
    (NewProtoBrokerWrapper (storeProtoBroker (fun _ => some ([[0, 1], [0, 2]], 4)))
        markerDecrypter ⟨0⟩).GetValue "/a" 5 St.init
      = (.ret (true, 4, none), ⟨[(5, [[1], [2]])], [⟨.message 5, ⟨0⟩⟩]⟩) :=
  C9_proto_GetValue_decrypts_once _ markerDecrypter ⟨0⟩ "/a" 5 4 St.init
    ⟨[(5, [[0, 1], [0, 2]])], []⟩ (.message 5) none [(5, [[1], [2]])] rfl rfl

/-- C10: when the wrapped proto broker reports `found = false` or a non-nil error,
the decorated `GetValue` returns the wrapped `(found, revision, err)` and the
state the wrapped call left: no call of `Decrypt` is recorded and the message
object is as the wrapped call left it. -/
theorem C10_proto_GetValue_skips_decrypt (pb : ProtoBroker) (D : ArbitraryDecrypter)
    (decryptFunc : DecryptFunc) (key : String) (reqObj : MsgPtr) (found : Bool) (rev : Int)
    (err : Err) (s s1 : St)
    (hraw : pb.GetValue key reqObj s = (.ret (found, rev, err), s1))
    (hskip : found = false ∨ err ≠ none) :
    (NewProtoBrokerWrapper pb D decryptFunc).GetValue key reqObj s
      = (.ret (found, rev, err), s1) := by
  rcases hskip with h | h
  · simp [ProtoBrokerWrapper.GetValue, NewProtoBrokerWrapper, hraw, h]
  · cases err with
    | none => exact absurd rfl h
    | some e => simp [ProtoBrokerWrapper.GetValue, NewProtoBrokerWrapper, hraw]

/-- Witness of C10: the key is absent, the message object stays the empty message
the wrapped call wrote. -/
theorem C10_proto_GetValue_skips_decrypt_witness :
    (NewProtoBrokerWrapper (storeProtoBroker (fun _ => none)) markerDecrypter ⟨0⟩).GetValue
        "/a" 5 St.init
      = (.ret (false, 0, none), ⟨[(5, [])], []⟩) :=
  C10_proto_GetValue_skips_decrypt _ markerDecrypter ⟨0⟩ "/a" 5 false 0 none St.init
    ⟨[(5, [])], []⟩ rfl (Or.inl rfl)

/-! ## Laziness -/

/-- A read of the value through a decorated pair records exactly one call of
`Decrypt`, on the raw value the embedded pair returned. -/
theorem GetValue_records_one_call (d : decryptData) (kv : BytesKeyVal) (s s1 : St) (raw : Bytes)
    (h : kv.GetValue s = (.ret raw, s1)) :
    ((BytesKeyValWrapper.mk (some kv) d).GetValue s).2.decryptCalls
      = s1.decryptCalls ++ [⟨.bytes raw, d.decryptFunc⟩] := by
  rcases hD : d.decrypter.Decrypt (.bytes raw) d.decryptFunc s1.heap with ⟨⟨v, e⟩, h2⟩
  cases e <;> simp [BytesKeyValWrapper.GetValue, promoted, h, callDecrypt, hD]

/-- A read of the previous value through a decorated pair records exactly one
call of `Decrypt`, on the raw previous value the embedded pair returned. -/
theorem GetPrevValue_records_one_call (d : decryptData) (kv : BytesKeyVal) (s s1 : St)
    (raw : Bytes) (h : kv.GetPrevValue s = (.ret raw, s1)) :
    ((BytesKeyValWrapper.mk (some kv) d).GetPrevValue s).2.decryptCalls
      = s1.decryptCalls ++ [⟨.bytes raw, d.decryptFunc⟩] := by
  rcases hD : d.decrypter.Decrypt (.bytes raw) d.decryptFunc s1.heap with ⟨⟨v, e⟩, h2⟩
  cases e <;> simp [BytesKeyValWrapper.GetPrevValue, promoted, h, callDecrypt, hD]

/-- C11 (evaluation at the failing input): the store lists one pair under `/a`,
with the encrypted value `0 :: [1]`.  `ListValues` and `GetNext` of the
decorators record no call of `Decrypt`, but the pair that the decorated
`GetNext` yields is built on a nil raw pair: reading it with `GetValue` or
`GetPrevValue` panics and records no call of `Decrypt` either, so one accessor
invocation stands against zero decryptions. -/
theorem C11_read_of_yielded_pair_records_no_decrypt :
    (∃ kv : BytesKeyVal,
        ((storeIterator 9 [storedKeyVal "/a" (some [0, 1]) none 1]).GetNext St.init).1
          = .ret (some kv, false)
        ∧ kv.GetValue St.init = (.ret (some [0, 1]), St.init))
    ∧ ∃ (it : BytesKeyValIterator) (kv : BytesKeyVal),
        (NewBytesBrokerWrapper
            (storeBroker (fun _ => (none, false, 0, none))
              (fun _ => (some (storeIterator 9 [storedKeyVal "/a" (some [0, 1]) none 1]), none)))
            markerDecrypter ⟨0⟩).ListValues "/a" St.init
          = (.ret (some it, none), St.init)
        ∧ it.GetNext St.init = (.ret (some kv, false), St.init)
        ∧ kv.GetValue St.init
          = (.panic "invalid memory address or nil pointer dereference", St.init)
        ∧ kv.GetPrevValue St.init
          = (.panic "invalid memory address or nil pointer dereference", St.init) :=
  ⟨⟨_, rfl, rfl⟩, _, _, rfl, rfl, rfl, rfl⟩

/-- C12 (counterexample): two calls of `GetValue` on one decorated pair call
`Decrypt` twice on the same raw value. -/
theorem C12_repeated_GetValue_decrypts_again :
    (readValueTimes ⟨some (storedKeyVal "/a" (some [0, 1]) none 1), ⟨⟨0⟩, markerDecrypter⟩⟩ 2
        St.init).decryptCalls
      = [⟨.bytes (some [0, 1]), ⟨0⟩⟩, ⟨.bytes (some [0, 1]), ⟨0⟩⟩]
    ∧ ¬ ((readValueTimes ⟨some (storedKeyVal "/a" (some [0, 1]) none 1), ⟨⟨0⟩, markerDecrypter⟩⟩ 2
        St.init).decryptCalls.count ⟨.bytes (some [0, 1]), ⟨0⟩⟩ ≤ 1) := by
  constructor
  · rfl
  · decide

/-- C12 (amended): decryption happens once per accessor invocation and is not
cached.  On a decorated pair whose raw record returns `value` and `prevValue`,
`n` calls of `GetValue` record exactly `n` calls of `Decrypt`, all on `value`, and
`n` calls of `GetPrevValue` exactly `n` calls, all on `prevValue`; with no read
nothing is decrypted, and a payload that is not read is not decrypted. -/
theorem C12_one_decryption_per_read (d : decryptData) (kv : BytesKeyVal)
    (value prevValue : Bytes)
    (hv : ∀ s, kv.GetValue s = (.ret value, s))
    (hp : ∀ s, kv.GetPrevValue s = (.ret prevValue, s)) (n : Nat) (s : St) :
    (readValueTimes ⟨some kv, d⟩ n s).decryptCalls
        = s.decryptCalls ++ List.replicate n ⟨.bytes value, d.decryptFunc⟩
    ∧ (readPrevValueTimes ⟨some kv, d⟩ n s).decryptCalls
        = s.decryptCalls ++ List.replicate n ⟨.bytes prevValue, d.decryptFunc⟩ := by
  constructor
  · induction n generalizing s with
    | zero => simp [readValueTimes]
    | succ k ih =>
      rw [readValueTimes, ih, GetValue_records_one_call d kv s s value (hv s),
        List.replicate_succ, List.append_assoc, List.singleton_append]
  · induction n generalizing s with
    | zero => simp [readPrevValueTimes]
    | succ k ih =>
      rw [readPrevValueTimes, ih, GetPrevValue_records_one_call d kv s s prevValue (hp s),
        List.replicate_succ, List.append_assoc, List.singleton_append]

/-- Witness of C12 (amended): three reads of the value and three of the previous
value of a stored pair. -/
theorem C12_one_decryption_per_read_witness :
    (readValueTimes ⟨some (storedKeyVal "/a" (some [0, 1]) (some [0, 2]) 1),
        ⟨⟨0⟩, markerDecrypter⟩⟩ 3 St.init).decryptCalls
        = [] ++ List.replicate 3 ⟨.bytes (some [0, 1]), ⟨0⟩⟩
    ∧ (readPrevValueTimes ⟨some (storedKeyVal "/a" (some [0, 1]) (some [0, 2]) 1),
        ⟨⟨0⟩, markerDecrypter⟩⟩ 3 St.init).decryptCalls
        = [] ++ List.replicate 3 ⟨.bytes (some [0, 2]), ⟨0⟩⟩ :=
  C12_one_decryption_per_read ⟨⟨0⟩, markerDecrypter⟩
    (storedKeyVal "/a" (some [0, 1]) (some [0, 2]) 1) (some [0, 1]) (some [0, 2])
    (fun _ => rfl) (fun _ => rfl) 3 St.init

/-! ## Plugin facades and repeated decoration -/

/-- C13: for every prefix, `NewBroker` and `NewWatcher` of the byte facade and
`NewBroker` of the structured facade run the corresponding factory of the raw
plugin once with that prefix, record no call of `Decrypt` (the state after is the
one the raw factory left) and return the decorator that `NewBytesBrokerWrapper`,
`NewBytesWatcherWrapper`, `NewProtoBrokerWrapper` build from the raw result with
the decrypter and `decryptFunc` of the facade. -/
theorem C13_facades_are_decorator_factories (pfx : String) (D : ArbitraryDecrypter)
    (decryptFunc : DecryptFunc) :
    (∀ (p : KvBytesPlugin) (raw : BytesBroker) (s s1 : St),
        p.NewBroker pfx s = (.ret raw, s1) →
        (NewKvBytesPluginWrapper p D decryptFunc).NewBroker pfx s
          = (.ret (NewBytesBrokerWrapper raw D decryptFunc).asBytesBroker, s1))
    ∧ (∀ (p : KvBytesPlugin) (raw : BytesWatcher) (s s1 : St),
        p.NewWatcher pfx s = (.ret raw, s1) →
        (NewKvBytesPluginWrapper p D decryptFunc).NewWatcher pfx s
          = (.ret (NewBytesWatcherWrapper raw D decryptFunc).asBytesWatcher, s1))
    ∧ (∀ (p : KvProtoPlugin) (raw : ProtoBroker) (s s1 : St),
        p.NewBroker pfx s = (.ret raw, s1) →
        (NewKvProtoPluginWrapper p D decryptFunc).NewBroker pfx s
          = (.ret (NewProtoBrokerWrapper raw D decryptFunc).asProtoBroker, s1)) := by
  refine ⟨?_, ?_, ?_⟩
  · intro p raw s s1 h
    simp [KvBytesPluginWrapper.NewBroker, NewKvBytesPluginWrapper, h]
  · intro p raw s s1 h
    simp [KvBytesPluginWrapper.NewWatcher, NewKvBytesPluginWrapper, h]
  · intro p raw s s1 h
    simp [KvProtoPluginWrapper.NewBroker, NewKvProtoPluginWrapper, h]

/-- Witness of C13: a store plugin that keeps a record of the prefixes it was
asked for; after each facade call the record holds the prefix `/p` once and no
call of `Decrypt` is recorded. -/
theorem C13_facades_are_decorator_factories_witness :
    ((NewKvBytesPluginWrapper
        (storePlugin (fun _ => storeBroker (fun _ => (some [0, 1], true, 7, none))
          (fun _ => (none, none))) (fun _ => deliveringWatcher [] none))
        markerDecrypter ⟨0⟩).NewBroker "/p" St.init).2 = ⟨[(0, [[47, 112]])], []⟩
    ∧ ((NewKvBytesPluginWrapper
        (storePlugin (fun _ => storeBroker (fun _ => (some [0, 1], true, 7, none))
          (fun _ => (none, none))) (fun _ => deliveringWatcher [] none))
        markerDecrypter ⟨0⟩).NewWatcher "/p" St.init).2 = ⟨[(0, [[47, 112]])], []⟩
    ∧ ((NewKvProtoPluginWrapper (storeProtoPlugin (fun _ => storeProtoBroker (fun _ => none)))
        markerDecrypter ⟨0⟩).NewBroker "/p" St.init).2 = ⟨[(0, [[47, 112]])], []⟩ :=
  ⟨congrArg Prod.snd ((C13_facades_are_decorator_factories "/p" markerDecrypter ⟨0⟩).1
      _ _ St.init ⟨[(0, [[47, 112]])], []⟩ rfl),
   congrArg Prod.snd ((C13_facades_are_decorator_factories "/p" markerDecrypter ⟨0⟩).2.1
      _ _ St.init ⟨[(0, [[47, 112]])], []⟩ rfl),
   congrArg Prod.snd ((C13_facades_are_decorator_factories "/p" markerDecrypter ⟨0⟩).2.2
      _ _ St.init ⟨[(0, [[47, 112]])], []⟩ rfl)⟩

/-- C14 (counterexample): the store holds a payload that was encrypted twice,
`0 :: 0 :: [1]`.  The singly decorated broker returns `0 :: [1]` after one call of
`Decrypt`; the doubly decorated broker calls `Decrypt` a second time, on that
already decrypted payload, and returns `[1]`. -/
theorem C14_double_decoration_decrypts_twice :
    (wrapBroker (storeBroker (fun _ => (some [0, 0, 1], true, 7, none)) (fun _ => (none, none)))
        ⟨⟨0⟩, markerDecrypter⟩).GetValue "/a" St.init
      = (.ret (some [0, 1], true, 7, none), ⟨[], [⟨.bytes (some [0, 0, 1]), ⟨0⟩⟩]⟩)
    ∧ (wrapBroker
        (wrapBroker (storeBroker (fun _ => (some [0, 0, 1], true, 7, none))
          (fun _ => (none, none))) ⟨⟨0⟩, markerDecrypter⟩)
        ⟨⟨0⟩, markerDecrypter⟩).GetValue "/a" St.init
      = (.ret (some [1], true, 7, none),
          ⟨[], [⟨.bytes (some [0, 0, 1]), ⟨0⟩⟩, ⟨.bytes (some [0, 1]), ⟨0⟩⟩]⟩) := by
  constructor <;> rfl

/-- C14 (amended): `GetValue` on a broker decorated twice with one context calls
`Decrypt` once more, on the payload `p` that the singly decorated broker returned;
when the decrypter returns that payload as it is, without error, the result
equals the one of the singly decorated broker. -/
theorem C14_double_decoration_with_noop_decrypt (b : BytesBroker) (ctx : decryptData)
    (key : String) (p : Bytes) (found : Bool) (rev : Int) (s s1 : St)
    (hinner : (wrapBroker b ctx).GetValue key s = (.ret (p, found, rev, none), s1))
    (hnoop : ctx.decrypter.Decrypt (.bytes p) ctx.decryptFunc s1.heap
      = ((.bytes p, none), s1.heap)) :
    (wrapBroker (wrapBroker b ctx) ctx).GetValue key s
      = (.ret (p, found, rev, none),
          ⟨s1.heap, s1.decryptCalls ++ [⟨.bytes p, ctx.decryptFunc⟩]⟩) := by
  have h : (NewBytesBrokerWrapper (wrapBroker b ctx) ctx.decrypter
      ctx.decryptFunc).BytesBroker.GetValue key s = (.ret (p, found, rev, none), s1) := hinner
  show (NewBytesBrokerWrapper (wrapBroker b ctx) ctx.decrypter ctx.decryptFunc).GetValue key s = _
  unfold BytesBrokerWrapper.GetValue
  rw [h]
  simp [NewBytesBrokerWrapper, callDecrypt, hnoop, assertBytes]

/-- Witness of C14 (amended): a decrypter that leaves a payload without marker
as it is; the store holds `0 :: [1, 2]`. -/
theorem C14_double_decoration_with_noop_decrypt_witness :
    (wrapBroker
        (wrapBroker (storeBroker (fun _ => (some [0, 1, 2], true, 7, none))
          (fun _ => (none, none))) ⟨⟨0⟩, lenientDecrypter⟩)
        ⟨⟨0⟩, lenientDecrypter⟩).GetValue "/a" St.init
      = (.ret (some [1, 2], true, 7, none),
          ⟨[], [⟨.bytes (some [0, 1, 2]), ⟨0⟩⟩, ⟨.bytes (some [1, 2]), ⟨0⟩⟩]⟩) :=
  C14_double_decoration_with_noop_decrypt _ ⟨⟨0⟩, lenientDecrypter⟩ "/a" (some [1, 2]) true 7
    St.init ⟨[], [⟨.bytes (some [0, 1, 2]), ⟨0⟩⟩]⟩ rfl rfl

end Cryptodata

/-! ## The file reader mock -/

namespace Reader

open Cryptodata (GoError Err Outcome)

/-- The search loop finds the first response with a matching method name,
returns its items and removes it from the queue. -/
theorem getReturnValuesLoop_hit (mock : FileDBReaderMock) (name : String) (r : WhenResp)
    (post : List WhenResp) (hr : r.methodName = name) :
    ∀ (mid pre : List WhenResp), mock.responses = pre ++ mid ++ r :: post →
      (∀ x ∈ mid, x.methodName ≠ name) →
      mock.getReturnValuesLoop name pre.length (mid ++ r :: post)
        = (r.items, { mock with responses := pre ++ mid ++ post }) := by
  intro mid
  induction mid with
  | nil =>
    intro pre hq _
    simp only [List.append_nil] at hq
    simp [FileDBReaderMock.getReturnValuesLoop, hr, hq]
  | cons m mid ih =>
    intro pre hq hmid
    have hm : m.methodName ≠ name := hmid m (List.mem_cons_self _ _)
    have h := ih (pre ++ [m]) (by simpa using hq)
      (fun x hx => hmid x (List.mem_cons_of_mem _ hx))
    simp only [List.length_append, List.length_singleton] at h
    rw [List.cons_append, FileDBReaderMock.getReturnValuesLoop, if_neg hm]
    simpa using h

/-- The search loop returns the empty response and leaves the mock as it is when
no response has a matching method name. -/
theorem getReturnValuesLoop_miss (mock : FileDBReaderMock) (name : String) :
    ∀ (rest : List WhenResp) (i : Nat), (∀ x ∈ rest, x.methodName ≠ name) →
      mock.getReturnValuesLoop name i rest = ([], mock) := by
  intro rest
  induction rest with
  | nil => intro i _; rfl
  | cons m rest ih =>
    intro i h
    have hm : m.methodName ≠ name := h m (List.mem_cons_self _ _)
    simp only [FileDBReaderMock.getReturnValuesLoop, hm, if_false]
    exact ih (i + 1) (fun x hx => h x (List.mem_cons_of_mem _ hx))

/-- Lookup on a queue with a first matching response. -/
theorem getReturnValues_hit (mock : FileDBReaderMock) (name : String)
    (pre post : List WhenResp) (r : WhenResp) (hq : mock.responses = pre ++ r :: post)
    (hpre : ∀ x ∈ pre, x.methodName ≠ name) (hr : r.methodName = name) :
    mock.getReturnValues name = (r.items, { mock with responses := pre ++ post }) := by
  have h1 := getReturnValuesLoop_hit mock name r post hr pre [] (by simpa using hq) hpre
  simp only [List.length_nil, List.nil_append] at h1
  unfold FileDBReaderMock.getReturnValues
  rw [hq]
  exact h1

/-- Lookup on a queue without a matching response. -/
theorem getReturnValues_miss (mock : FileDBReaderMock) (name : String)
    (h : ∀ x ∈ mock.responses, x.methodName ≠ name) :
    mock.getReturnValues name = ([], mock) :=
  getReturnValuesLoop_miss mock name mock.responses 0 h

/-- A queue either has no response for `name` or splits at the first one. -/
theorem first_match_split (name : String) : ∀ l : List WhenResp,
    (∀ x ∈ l, x.methodName ≠ name) ∨
    ∃ pre r post, l = pre ++ r :: post ∧ (∀ x ∈ pre, x.methodName ≠ name)
      ∧ r.methodName = name := by
  intro l
  induction l with
  | nil => exact Or.inl (by simp)
  | cons a l ih =>
    by_cases ha : a.methodName = name
    · exact Or.inr ⟨[], a, l, rfl, by simp, ha⟩
    · rcases ih with h | ⟨pre, r, post, hq, hpre, hr⟩
      · refine Or.inl (fun x hx => ?_)
        rcases List.mem_cons.mp hx with rfl | hx
        · exact ha
        · exact h x hx
      · refine Or.inr ⟨a :: pre, r, post, by simp [hq], fun x hx => ?_, hr⟩
        rcases List.mem_cons.mp hx with rfl | hx
        · exact ha
        · exact hpre x hx

/-- Successive lookups of one method return the items of its queued responses in
queue order, and the empty response once they are used up. -/
theorem answers_eq (name : String) : ∀ (n : Nat) (mock : FileDBReaderMock),
    answers name n mock
      = ((mock.responses.filter (fun r => decide (r.methodName = name))).map
            WhenResp.items).take n
        ++ List.replicate
            (n - (mock.responses.filter (fun r => decide (r.methodName = name))).length) [] := by
  intro n
  induction n with
  | zero => intro mock; simp [answers]
  | succ k ih =>
    intro mock
    rcases first_match_split name mock.responses with h | ⟨pre, r, post, hq, hpre, hr⟩
    · have hf : mock.responses.filter (fun r => decide (r.methodName = name)) = [] := by
        rw [List.filter_eq_nil_iff]
        intro x hx
        simpa using h x hx
      rw [answers, getReturnValues_miss mock name h, ih, hf]
      simp [List.replicate_succ]
    · have hfpre : pre.filter (fun r => decide (r.methodName = name)) = [] := by
        rw [List.filter_eq_nil_iff]
        intro x hx
        simpa using hpre x hx
      rw [answers, getReturnValues_hit mock name pre post r hq hpre hr, ih, hq]
      simp [List.filter_append, hfpre, List.filter_cons, hr]

/-- A registration puts one response at the end of the queue. -/
theorem register_responses (mock : FileDBReaderMock) (hwf : WellFormed mock) (name : String)
    (items : List Item) :
    (mock.register name items).responses
        = mock.responses ++ [⟨mock.allocated, name, items⟩]
    ∧ (mock.register name items).allocated = mock.allocated + 1 := by
  refine ⟨?_, rfl⟩
  have hmap : mock.responses.map
      (fun r => if r.addr = mock.allocated then { r with items := items } else r)
      = mock.responses := by
    conv_rhs => rw [← List.map_id mock.responses]
    apply List.map_congr_left
    intro r hr
    have := hwf r hr
    simp [Nat.ne_of_lt this]
  simp [FileDBReaderMock.register, FileDBReaderMock.When, WhenResp.ThenReturn, hmap]

/-- A registration keeps the queue well formed. -/
theorem register_wellFormed (mock : FileDBReaderMock) (hwf : WellFormed mock) (name : String)
    (items : List Item) : WellFormed (mock.register name items) := by
  intro r hr
  rw [(register_responses mock hwf name items).1] at hr
  rw [(register_responses mock hwf name items).2]
  rcases List.mem_append.mp hr with h | h
  · exact Nat.lt_succ_of_lt (hwf r h)
  · simp only [List.mem_singleton] at h
    subst h
    exact Nat.lt_succ_self _

/-- A sequence of registrations queues its responses in order, behind the ones
already there. -/
theorem registerAll_responses : ∀ (regs : List (String × List Item)) (mock : FileDBReaderMock),
    WellFormed mock →
    (registerAll mock regs).responses.map (fun r => (r.methodName, r.items))
      = mock.responses.map (fun r => (r.methodName, r.items)) ++ regs := by
  intro regs
  induction regs with
  | nil => intro mock _; simp [registerAll]
  | cons a regs ih =>
    intro mock hwf
    have h := ih (mock.register a.1 a.2) (register_wellFormed mock hwf a.1 a.2)
    rw [(register_responses mock hwf a.1 a.2).1] at h
    simpa [registerAll] using h

/-- C15: `getReturnValues(name)` returns the items of the first queued response
whose method name is `name`, removes that response only and keeps the others in
their order; without such a response it returns the empty list and leaves the
queue as it is.  Registrations queue in order, so on a mock built by a sequence
of registrations the first `n` lookups of a method return the items of its
registrations in registration order, whatever was registered in between for
other methods, and the empty list after that. -/
theorem C15_answers_in_registration_order :
    (∀ (mock : FileDBReaderMock) (name : String) (pre post : List WhenResp) (r : WhenResp),
        mock.responses = pre ++ r :: post →
        (∀ x ∈ pre, x.methodName ≠ name) → r.methodName = name →
        mock.getReturnValues name = (r.items, { mock with responses := pre ++ post }))
    ∧ (∀ (mock : FileDBReaderMock) (name : String),
        (∀ x ∈ mock.responses, x.methodName ≠ name) →
        mock.getReturnValues name = ([], mock))
    ∧ (∀ (regs : List (String × List Item)) (name : String) (n : Nat),
        answers name n (registerAll NewFileDBReaderMock regs)
          = ((regs.filter (fun r => decide (r.1 = name))).map Prod.snd).take n
            ++ List.replicate (n - (regs.filter (fun r => decide (r.1 = name))).length) []) := by
  refine ⟨fun mock name pre post r hq hpre hr => getReturnValues_hit mock name pre post r hq hpre hr,
    fun mock name h => getReturnValues_miss mock name h, fun regs name n => ?_⟩
  have hq : (registerAll NewFileDBReaderMock regs).responses.map
      (fun r => (r.methodName, r.items)) = regs :=
    registerAll_responses regs NewFileDBReaderMock (by intro r hr; cases hr)
  have hf : regs.filter (fun r => decide (r.1 = name))
      = ((registerAll NewFileDBReaderMock regs).responses.filter
          (fun r => decide (r.methodName = name))).map (fun r => (r.methodName, r.items)) := by
    conv_lhs => rw [← hq]
    rw [List.filter_map]
    rfl
  rw [answers_eq, hf]
  simp [List.map_map, Function.comp_def]

/-- Witness of C15: two registrations for `IsValid` with one for `PathExists` in
between; three lookups of `IsValid` return `true`, `false` and the empty list. -/
theorem C15_answers_in_registration_order_witness :
    answers "IsValid" 3 (registerAll NewFileDBReaderMock
        [("IsValid", [.bool true]), ("PathExists", [.bool true]), ("IsValid", [.bool false])])
      = [[.bool true], [.bool false], []]
    ∧ (registerAll NewFileDBReaderMock
        [("IsValid", [.bool true]), ("PathExists", [.bool true]),
          ("IsValid", [.bool false])]).getReturnValues "PathExists"
      = ([.bool true],
          { responses := [⟨0, "IsValid", [.bool true]⟩, ⟨2, "IsValid", [.bool false]⟩],
            respCurr := 0, respMax := 0, allocated := 3 })
    ∧ (registerAll NewFileDBReaderMock
        [("IsValid", [.bool true])]).getReturnValues "ProcessFiles"
      = ([], registerAll NewFileDBReaderMock [("IsValid", [.bool true])]) :=
  ⟨(C15_answers_in_registration_order.2.2 _ "IsValid" 3).trans (by decide),
   C15_answers_in_registration_order.1 _ "PathExists" [⟨0, "IsValid", [.bool true]⟩]
     [⟨2, "IsValid", [.bool false]⟩] ⟨1, "PathExists", [.bool true]⟩ (by decide) (by decide)
     (by decide),
   C15_answers_in_registration_order.2.1 _ "ProcessFiles" (by decide)⟩

/-- C16: `ProcessFiles` on a single configured item returns the file list with a
nil error when the item is a file list, and the empty file list with the error
when the item is an error; without a configured response, or with a response
without items, it returns the empty file list and a nil error; on the two items
`(fs, e)` with `e` a non-nil error it returns `(fs, e)`.  In each case the
response used is taken off the queue. -/
theorem C16_ProcessFiles_parses_items :
    (∀ (mock : FileDBReaderMock) (pre post : List WhenResp) (a : Nat) (fs : Files)
        (path : String),
        mock.responses = pre ++ ⟨a, "ProcessFiles", [.files fs]⟩ :: post →
        (∀ x ∈ pre, x.methodName ≠ "ProcessFiles") →
        mock.ProcessFiles path = (.ret (fs, none), { mock with responses := pre ++ post }))
    ∧ (∀ (mock : FileDBReaderMock) (pre post : List WhenResp) (a : Nat) (e : GoError)
        (path : String),
        mock.responses = pre ++ ⟨a, "ProcessFiles", [.error e]⟩ :: post →
        (∀ x ∈ pre, x.methodName ≠ "ProcessFiles") →
        mock.ProcessFiles path
          = (.ret (some [], some e), { mock with responses := pre ++ post }))
    ∧ (∀ (mock : FileDBReaderMock) (path : String),
        (∀ x ∈ mock.responses, x.methodName ≠ "ProcessFiles") →
        mock.ProcessFiles path = (.ret (some [], none), mock))
    ∧ (∀ (mock : FileDBReaderMock) (pre post : List WhenResp) (a : Nat) (path : String),
        mock.responses = pre ++ ⟨a, "ProcessFiles", []⟩ :: post →
        (∀ x ∈ pre, x.methodName ≠ "ProcessFiles") →
        mock.ProcessFiles path
          = (.ret (some [], none), { mock with responses := pre ++ post }))
    ∧ (∀ (mock : FileDBReaderMock) (pre post : List WhenResp) (a : Nat) (fs : Files)
        (e : GoError) (path : String),
        mock.responses = pre ++ ⟨a, "ProcessFiles", [.files fs, .error e]⟩ :: post →
        (∀ x ∈ pre, x.methodName ≠ "ProcessFiles") →
        mock.ProcessFiles path
          = (.ret (fs, some e), { mock with responses := pre ++ post })) := by
  refine ⟨?_, ?_, ?_, ?_, ?_⟩
  · intro mock pre post a fs path hq hpre
    simp [FileDBReaderMock.ProcessFiles, getReturnValues_hit mock _ pre post _ hq hpre rfl]
  · intro mock pre post a e path hq hpre
    simp [FileDBReaderMock.ProcessFiles, getReturnValues_hit mock _ pre post _ hq hpre rfl]
  · intro mock path h
    simp [FileDBReaderMock.ProcessFiles, getReturnValues_miss mock _ h]
  · intro mock pre post a path hq hpre
    simp [FileDBReaderMock.ProcessFiles, getReturnValues_hit mock _ pre post _ hq hpre rfl]
  · intro mock pre post a fs e path hq hpre
    simp [FileDBReaderMock.ProcessFiles, getReturnValues_hit mock _ pre post _ hq hpre rfl,
      assertFiles, assertError]

/-- Witness of C16: one registration per case, on a fresh mock. -/
theorem C16_ProcessFiles_parses_items_witness :
    (NewFileDBReaderMock.register "ProcessFiles" [.files (some [1, 2])]).ProcessFiles "/dir"
      = (.ret (some [1, 2], none), { NewFileDBReaderMock with allocated := 1 })
    ∧ (NewFileDBReaderMock.register "ProcessFiles" [.error ⟨"no such dir"⟩]).ProcessFiles "/dir"
      = (.ret (some [], some ⟨"no such dir"⟩), { NewFileDBReaderMock with allocated := 1 })
    ∧ NewFileDBReaderMock.ProcessFiles "/dir" = (.ret (some [], none), NewFileDBReaderMock)
    ∧ (NewFileDBReaderMock.register "ProcessFiles" []).ProcessFiles "/dir"
      = (.ret (some [], none), { NewFileDBReaderMock with allocated := 1 })
    ∧ (NewFileDBReaderMock.register "ProcessFiles"
        [.files (some [1, 2]), .error ⟨"partial read"⟩]).ProcessFiles "/dir"
      = (.ret (some [1, 2], some ⟨"partial read"⟩), { NewFileDBReaderMock with allocated := 1 }) :=
  ⟨C16_ProcessFiles_parses_items.1 _ [] [] 0 (some [1, 2]) "/dir" rfl (by simp),
   C16_ProcessFiles_parses_items.2.1 _ [] [] 0 ⟨"no such dir"⟩ "/dir" rfl (by simp),
   C16_ProcessFiles_parses_items.2.2.1 _ "/dir" (by simp [NewFileDBReaderMock]),
   C16_ProcessFiles_parses_items.2.2.2.1 _ [] [] 0 "/dir" rfl (by simp),
   C16_ProcessFiles_parses_items.2.2.2.2 _ [] [] 0 (some [1, 2]) ⟨"partial read"⟩ "/dir" rfl
     (by simp)⟩

/-- The mocked `IsValid` and `PathExists` return the configured boolean when the
first queued response of the method has a boolean as first item. -/
theorem IsValid_PathExists_return_configured_bool (mock : FileDBReaderMock)
    (pre post : List WhenResp) (a : Nat) (b : Bool) (more : List Item) (path : String) :
    (mock.responses = pre ++ ⟨a, "IsValid", .bool b :: more⟩ :: post →
      (∀ x ∈ pre, x.methodName ≠ "IsValid") →
      mock.IsValid path = (.ret b, { mock with responses := pre ++ post }))
    ∧ (mock.responses = pre ++ ⟨a, "PathExists", .bool b :: more⟩ :: post →
      (∀ x ∈ pre, x.methodName ≠ "PathExists") →
      mock.PathExists path = (.ret b, { mock with responses := pre ++ post })) := by
  constructor
  · intro hq hpre
    simp [FileDBReaderMock.IsValid, getReturnValues_hit mock _ pre post _ hq hpre rfl,
      firstAsBool]
  · intro hq hpre
    simp [FileDBReaderMock.PathExists, getReturnValues_hit mock _ pre post _ hq hpre rfl,
      firstAsBool]

/-- C17 (evaluation at the failing input): after `ThenReturn(files, nil)` for
`ProcessFiles`, both items match the return types of the method, yet the call
panics in the type assertion `items[1].(error)` instead of returning
`(files, nil)`. -/
theorem C17_ProcessFiles_panics_on_nil_error :
    (NewFileDBReaderMock.register "ProcessFiles" [.files (some [1, 2]), .nil]).responses
        = [⟨0, "ProcessFiles", [.files (some [1, 2]), .nil]⟩]
    ∧ (NewFileDBReaderMock.register "ProcessFiles" [.files (some [1, 2]), .nil]).ProcessFiles
        "/dir"
      = (.panic "interface conversion: interface is nil, not error",
          { NewFileDBReaderMock with allocated := 1 }) := by
  constructor <;> rfl

end Reader

/-! ## The GRPC plugin without configuration -/

namespace Grpc

open Cryptodata (GoError Err)

/-- With no preset configuration, when the lookup reports not found without
error, `Init` returns nil, `IsDisabled` is true afterwards, the configuration
field holds the empty configuration the lookup filled, the server field is as
before and the only call made is the log message; when the lookup fails with `e`,
`Init` returns `e`, creates no server and makes no call; and `Init` leaves a
plugin that is not disabled and has a preset or found configuration not
disabled. -/
theorem Init_without_configuration (env : Env) (plugin : Plugin) (log : List Effect) :
    (∀ cfg : Config, plugin.Config = none →
        plugin.Deps.LoadValue { Endpoint := "" } = (cfg, false, none) →
        (plugin.Init env log).1 = none
        ∧ (plugin.Init env log).2.1.IsDisabled = true
        ∧ (plugin.Init env log).2.1.Config = some cfg
        ∧ (plugin.Init env log).2.1.GetServer = plugin.GetServer
        ∧ (plugin.Init env log).2.2
            = log ++ [.Info "GRPC config not found, skip loading this plugin"])
    ∧ (∀ (cfg : Config) (found : Bool) (e : GoError), plugin.Config = none →
        plugin.Deps.LoadValue { Endpoint := "" } = (cfg, found, some e) →
        (plugin.Init env log).1 = some e
        ∧ (plugin.Init env log).2.1.GetServer = plugin.GetServer
        ∧ (plugin.Init env log).2.2 = log)
    ∧ (plugin.disabled = false →
        ((∃ cfg, plugin.Config = some cfg)
          ∨ (∃ cfg, plugin.Config = none
              ∧ plugin.Deps.LoadValue { Endpoint := "" } = (cfg, true, none))) →
        (plugin.Init env log).2.1.IsDisabled = false) := by
  refine ⟨?_, ?_, ?_⟩
  · intro cfg hc hl
    simp [Plugin.Init, Plugin.getGrpcConfig, Plugin.IsDisabled, Plugin.GetServer, hc, hl]
  · intro cfg found e hc hl
    simp [Plugin.Init, Plugin.getGrpcConfig, Plugin.GetServer, hc, hl]
  · intro hd h
    rcases h with ⟨cfg, hc⟩ | ⟨cfg, hc, hl⟩
    · simp only [Plugin.Init, hc, Plugin.startServer, Plugin.IsDisabled]
      split <;> split <;> simp_all
    · simp only [Plugin.Init, Plugin.getGrpcConfig, hc, hl, Plugin.startServer,
        Plugin.IsDisabled]
      simp only [Option.isSome_none, Bool.false_eq_true, if_false, Bool.not_true, hd,
        Bool.or_self]
      split <;> split <;> simp_all

/-- With a preset configuration `Init` never reads or writes the flag `disabled`:
whatever the flag was, it is the same afterwards, and the listener is started. -/
theorem Init_with_preset_configuration_keeps_flag (env : Env) (plugin : Plugin)
    (log : List Effect) (cfg : Config) (hc : plugin.Config = some cfg) :
    (plugin.Init env log).2.1.IsDisabled = plugin.IsDisabled
    ∧ (.ListenAndServe cfg
        (plugin.grpcServer.getD ⟨env.getGrpcOptions cfg⟩)) ∈ (plugin.Init env log).2.2 := by
  constructor
  · simp only [Plugin.Init, hc, Plugin.startServer, Plugin.IsDisabled]
    split <;> split <;> simp_all
  · simp only [Plugin.Init, hc, Plugin.startServer]
    cases hs : plugin.grpcServer <;> split <;> simp_all

/-- C18 (evaluation at the failing input): a new plugin without preset
configuration whose lookup finds nothing.  The first `Init` returns nil, sets
`disabled`, creates no server, and stores the empty configuration in `Config`.
On the second `Init` the plugin therefore has a preset configuration: the lookup
and the test of `disabled` are skipped, the server is created and
`ListenAndServe` is called, and `IsDisabled` is still true. -/
theorem C18_second_Init_serves_while_disabled :
    (unconfiguredPlugin.Init listeningEnv []).1 = none
    ∧ (unconfiguredPlugin.Init listeningEnv []).2.1.IsDisabled = true
    ∧ (unconfiguredPlugin.Init listeningEnv []).2.1.GetServer = none
    ∧ (unconfiguredPlugin.Init listeningEnv []).2.1.Config = some ⟨""⟩
    ∧ (unconfiguredPlugin.Init listeningEnv []).2.2
        = [.Info "GRPC config not found, skip loading this plugin"]
    ∧ ((unconfiguredPlugin.Init listeningEnv []).2.1.Init listeningEnv
          (unconfiguredPlugin.Init listeningEnv []).2.2).1 = none
    ∧ ((unconfiguredPlugin.Init listeningEnv []).2.1.Init listeningEnv
          (unconfiguredPlugin.Init listeningEnv []).2.2).2.1.GetServer = some ⟨[]⟩
    ∧ ((unconfiguredPlugin.Init listeningEnv []).2.1.Init listeningEnv
          (unconfiguredPlugin.Init listeningEnv []).2.2).2.2
        = [.Info "GRPC config not found, skip loading this plugin", .NewServer [],
            .SetLogger "grpc-server", .ListenAndServe ⟨""⟩ ⟨[]⟩,
            .Info "Listening GRPC on: "]
    ∧ ((unconfiguredPlugin.Init listeningEnv []).2.1.Init listeningEnv
          (unconfiguredPlugin.Init listeningEnv []).2.2).2.1.IsDisabled = true := by
  refine ⟨rfl, rfl, rfl, rfl, ?_, rfl, rfl, ?_, rfl⟩ <;> decide

end Grpc

/-! ## Options of the cassandra plugin -/

namespace Cassandra

/-- The defaults of `NewPlugin` depend on the dependencies the options left, and
on nothing else. -/
theorem NewPlugin_Deps_of_applyOptions (ext : Defaults) (opts opts2 : List PluginOption)
    (h : (applyOptions opts).Deps = (applyOptions opts2).Deps) :
    (NewPlugin ext opts).Deps = (NewPlugin ext opts2).Deps := by
  cases hp : applyOptions opts with
  | mk d =>
    cases hq : applyOptions opts2 with
    | mk d2 =>
      have hd : d = d2 := by simpa [hp, hq] using h
      simp only [NewPlugin, hp, hq, hd]

/-- C19 (counterexample): the single option `UseDeps` with the plugin name
`cassandra`.  The options did not leave the name empty, yet the name of the
returned plugin is `cassandra`: the name is `cassandra` not only when the options
left it empty. -/
theorem C19_name_cassandra_without_empty_name :
    (applyOptions [UseDeps ⟨"cassandra", none, none, none⟩]).Deps.PluginName ≠ ""
    ∧ (NewPlugin ⟨fun n => ⟨n⟩, fun n => ⟨n⟩, ⟨0⟩⟩
        [UseDeps ⟨"cassandra", none, none, none⟩]).Deps.PluginName = "cassandra"
    ∧ ¬ ((NewPlugin ⟨fun n => ⟨n⟩, fun n => ⟨n⟩, ⟨0⟩⟩
          [UseDeps ⟨"cassandra", none, none, none⟩]).Deps.PluginName = "cassandra"
        ↔ (applyOptions [UseDeps ⟨"cassandra", none, none, none⟩]).Deps.PluginName = "") := by
  decide

/-- C19 (amended): `NewPlugin` applies the options in argument order, each to the
plugin the earlier ones left, and then fills the defaults without overriding
what the options injected.  The returned dependencies are fully determined by
those the options left: the name is `cassandra` when it was left empty and the
name set otherwise (so it is `cassandra` exactly when it was left empty or set
to `cassandra`); the logger, the configuration and the status writer are the
injected ones when non-nil, and otherwise the logger and the configuration made
for the final name and the default status writer.  When the last option is
`UseDeps deps`, the dependencies are those that `deps` alone gives. -/
theorem C19_NewPlugin_fills_defaults (ext : Defaults) (opts : List PluginOption) :
    (∀ o : PluginOption, applyOptions (opts ++ [o]) = o (applyOptions opts))
    ∧ NewPlugin ext opts
        = { Deps :=
            { PluginName :=
                if (applyOptions opts).Deps.PluginName = "" then "cassandra"
                else (applyOptions opts).Deps.PluginName
              Log := some ((applyOptions opts).Deps.Log.getD
                (ext.logForPlugin
                  (if (applyOptions opts).Deps.PluginName = "" then "cassandra"
                   else (applyOptions opts).Deps.PluginName)))
              PluginConfig := some ((applyOptions opts).Deps.PluginConfig.getD
                (ext.configForPlugin
                  (if (applyOptions opts).Deps.PluginName = "" then "cassandra"
                   else (applyOptions opts).Deps.PluginName)))
              StatusCheck := some ((applyOptions opts).Deps.StatusCheck.getD
                ext.defaultStatusCheck) } }
    ∧ ((NewPlugin ext opts).Deps.PluginName = "cassandra"
        ↔ ((applyOptions opts).Deps.PluginName = ""
            ∨ (applyOptions opts).Deps.PluginName = "cassandra"))
    ∧ (∀ deps : Deps,
        (NewPlugin ext (opts ++ [UseDeps deps])).Deps = (NewPlugin ext [UseDeps deps]).Deps)
    ∧ (∀ l : Logger, (applyOptions opts).Deps.Log = some l →
        (NewPlugin ext opts).Deps.Log = some l)
    ∧ (∀ c : PluginConfig, (applyOptions opts).Deps.PluginConfig = some c →
        (NewPlugin ext opts).Deps.PluginConfig = some c)
    ∧ (∀ w : StatusCheck, (applyOptions opts).Deps.StatusCheck = some w →
        (NewPlugin ext opts).Deps.StatusCheck = some w) := by
  have hfull : NewPlugin ext opts
      = { Deps :=
          { PluginName :=
              if (applyOptions opts).Deps.PluginName = "" then "cassandra"
              else (applyOptions opts).Deps.PluginName
            Log := some ((applyOptions opts).Deps.Log.getD
              (ext.logForPlugin
                (if (applyOptions opts).Deps.PluginName = "" then "cassandra"
                 else (applyOptions opts).Deps.PluginName)))
            PluginConfig := some ((applyOptions opts).Deps.PluginConfig.getD
              (ext.configForPlugin
                (if (applyOptions opts).Deps.PluginName = "" then "cassandra"
                 else (applyOptions opts).Deps.PluginName)))
            StatusCheck := some ((applyOptions opts).Deps.StatusCheck.getD
              ext.defaultStatusCheck) } } := by
    rcases hq : applyOptions opts with ⟨⟨name, log, cfg, sc⟩⟩
    simp only [NewPlugin, hq]
    by_cases hn : name = "" <;> cases log <;> cases cfg <;> cases sc <;> simp [hn]
  refine ⟨?_, hfull, ?_, ?_, ?_, ?_, ?_⟩
  · intro o
    simp [applyOptions, List.foldl_append]
  · rw [hfull]
    by_cases hn : (applyOptions opts).Deps.PluginName = ""
    · simp [hn]
    · simp [hn]
  · intro deps
    apply NewPlugin_Deps_of_applyOptions
    simp [applyOptions, UseDeps]
  · intro l hl
    rw [hfull]
    simp [hl]
  · intro c hc
    rw [hfull]
    simp [hc]
  · intro w hw
    rw [hfull]
    simp [hw]

/-- Witness of C19 (amended): no option gives every default; two `UseDeps`
options, the last one naming the plugin `cql` and injecting a logger, give the
dependencies of the last one with the remaining defaults made for `cql`. -/
theorem C19_NewPlugin_fills_defaults_witness :
    NewPlugin ⟨fun n => ⟨n⟩, fun n => ⟨n⟩, ⟨0⟩⟩ []
      = ⟨⟨"cassandra", some ⟨"cassandra"⟩, some ⟨"cassandra"⟩, some ⟨0⟩⟩⟩
    ∧ NewPlugin ⟨fun n => ⟨n⟩, fun n => ⟨n⟩, ⟨0⟩⟩
        [UseDeps ⟨"first", none, none, none⟩, UseDeps ⟨"cql", some ⟨"mine"⟩, none, none⟩]
      = ⟨⟨"cql", some ⟨"mine"⟩, some ⟨"cql"⟩, some ⟨0⟩⟩⟩
    ∧ (NewPlugin ⟨fun n => ⟨n⟩, fun n => ⟨n⟩, ⟨0⟩⟩
        ([UseDeps ⟨"first", none, none, none⟩]
          ++ [UseDeps ⟨"cql", some ⟨"mine"⟩, none, none⟩])).Deps
      = ⟨"cql", some ⟨"mine"⟩, some ⟨"cql"⟩, some ⟨0⟩⟩ :=
  ⟨(C19_NewPlugin_fills_defaults ⟨fun n => ⟨n⟩, fun n => ⟨n⟩, ⟨0⟩⟩ []).2.1.trans
      (by decide),
   (C19_NewPlugin_fills_defaults ⟨fun n => ⟨n⟩, fun n => ⟨n⟩, ⟨0⟩⟩
      [UseDeps ⟨"first", none, none, none⟩,
        UseDeps ⟨"cql", some ⟨"mine"⟩, none, none⟩]).2.1.trans (by decide),
   ((C19_NewPlugin_fills_defaults ⟨fun n => ⟨n⟩, fun n => ⟨n⟩, ⟨0⟩⟩
      [UseDeps ⟨"first", none, none, none⟩]).2.2.2.1
      ⟨"cql", some ⟨"mine"⟩, none, none⟩).trans (by decide)⟩

end Cassandra
